import Mathlib

/-!
# mrgsolve `DEVTRAN`: event scheduling and the simulation driver

A shallow embedding of `src/rdev/src/devtran.cpp` (function `DEVTRAN`).

Conventions of the embedding.

* A C++ `double` is a rational number (`ℚ`): comparison and the four operations are
  exact, rounding and the special values are not represented.
* Where a result can leave the range of its type, machine arithmetic is explicit:
  `unsigned int` counters, sizes and column indices are naturals reduced modulo `2^32`
  (`u32`), the `int` position `data.nrow() + 10` is wrapped to 32 bits (`i32`).
  Compartment numbers and the at most eight tran columns are plain integers.
* A record stack `a[i]` (a `std::vector` of shared pointers) is a `List datarecord` of
  record values; an update made through the pointer `this_rec` is an update of the
  entry at the index of the record.
* The result matrix `ans` is represented by the sequence of its cell assignments, in
  program order, grouped by record (`List RowWrite`).
* `Rcpp::stop` / `CRUMP` is `Except.error` with the message of the source.
* Classes that are not part of this file of the repository (`datarecord`,
  `odeproblem`, `dataobject`) are either taken as parameters (`Externals`) or, where
  the specification describes them, modelled from it; such definitions say so.
-/

namespace Mrgsolve

/-! ## Machine integers -/

/-- Value of an `unsigned int` expression: reduction modulo `2^32`. -/
def u32 (n : Nat) : Nat := n % 2 ^ 32

/-- Value of an `int` expression: wrap-around to the 32 bit two's complement range. -/
def i32 (z : Int) : Int := (z + 2 ^ 31) % 2 ^ 32 - 2 ^ 31

/-! ## Event records -/

/-- Modelled from the spec: the class `datarecord` (§3, Event Record); its declaration
is not in `devtran.cpp`. One field per field of the specification. -/
structure datarecord where
  Time : ℚ
  Pos : Int
  Evid : Int
  Cmt : Int
  Amt : ℚ
  Rate : ℚ
  Ii : ℚ
  Addl : Int
  Ss : Int
  Fn : ℚ
  Id : ℚ
  Armed : Bool
  Phantom : Bool
  Fromdata : Bool
  Output : Bool
  deriving DecidableEq

namespace datarecord

/-- Modelled from the spec: the constructor `datarecord(time, pos, output)` used for grid
and padded observation records: an observation (`evid = 0`) that is generated, hence
neither dataset-sourced nor a phantom. -/
def obs (time : ℚ) (pos : Int) (output : Bool) : datarecord :=
  { Time := time, Pos := pos, Evid := 0, Cmt := 0, Amt := 0, Rate := 0, Ii := 0, Addl := 0,
    Ss := 0, Fn := 1, Id := 0, Armed := false, Phantom := false, Fromdata := false,
    Output := output }

/-- Accessor `output()`: the `output` flag (whether the row appears in the result). -/
def output (r : datarecord) : Bool := r.Output

/-- Accessor `from_data()`: the `from_dataset` flag. -/
def from_data (r : datarecord) : Bool := r.Fromdata

/-- Setter `id(double)`. -/
def set_id (r : datarecord) (id : ℚ) : datarecord := { r with Id := id }

/-- Setter `fn(double)`. -/
def set_fn (r : datarecord) (f : ℚ) : datarecord := { r with Fn := f }

/-- Setter `rate(double)`. -/
def set_rate (r : datarecord) (x : ℚ) : datarecord := { r with Rate := x }

/-- Setter `pos(int)`. -/
def set_pos (r : datarecord) (p : Int) : datarecord := { r with Pos := p }

/-- Setter `time(double)`. -/
def set_time (r : datarecord) (t : ℚ) : datarecord := { r with Time := t }

/-- Modelled from the spec: `datarecord::phantom_rec()`. §3: the `phantom` flag marks a
generated record that "carries no dataset identity"; the comment of the driver at the
call (lines 480-482) describes the spawned record as "a new event with no output". -/
def phantom_rec (r : datarecord) : datarecord :=
  { r with Phantom := true, Fromdata := false, Output := false }

/-- Modelled from the spec: `datarecord::unarm()`. §4.3 step 3: "disarm the current record
(it becomes inert — no effect, no output)"; §3: "a record with `armed=false` is excluded
from scheduling/output". -/
def unarm (r : datarecord) : datarecord := { r with Armed := false, Output := false }

end datarecord

/-- Modelled from the spec: the comparator `CompRec` (§4.1): primary key `time` ascending,
secondary key `original_position` ascending. `CompRec a b` is "a goes before b". -/
def CompRec (a b : datarecord) : Bool :=
  if a.Time = b.Time then decide (a.Pos < b.Pos) else decide (a.Time < b.Time)

/-- The order `std::sort` establishes with `CompRec`: no later element goes before an
earlier one. -/
def RecLE (a b : datarecord) : Prop := CompRec b a = false

instance : DecidableRel RecLE := fun a b => inferInstanceAs (Decidable (CompRec b a = false))

/-- Model of `std::sort(first, last, CompRec())` on the range given as a list: a sorting
function for the comparator (insertion sort). -/
def std_sort (l : List datarecord) : List datarecord := l.insertionSort RecLE

/-- A stack is non-decreasing in `time`. -/
def TimeOrdered (l : List datarecord) : Prop := l.Pairwise (fun a b => a.Time ≤ b.Time)

instance (l : List datarecord) : Decidable (TimeOrdered l) :=
  inferInstanceAs (Decidable (l.Pairwise _))

/-! ## Options and the dispatch on `recsort` (lines 53-101, 156) -/

/-- Effect of `switch (recsort)`: the pair `(put_ev_first, addl_ev_first)`, or the fatal
error of the default case. -/
def recsortFlags (recsort : Int) : Except String (Bool × Bool) :=
  if recsort = 1 then .ok (false, true)
  else if recsort = 2 then .ok (false, false)
  else if recsort = 3 then .ok (true, true)
  else if recsort = 4 then .ok (true, false)
  else .error "recsort must be 1, 2, 3, or 4."

/-- Line 156: `int nextpos = put_ev_first ? (data.nrow() + 10) : -100;`. -/
def nextpos (put_ev_first : Bool) (data_nrow : Int) : Int :=
  if put_ev_first then i32 (data_nrow + 10) else -100

/-! ## The relative step (lines 429-436) -/

/-- Line 430: `dt = (tto-tfrom)/(tfrom == 0.0 ? 1.0 : tfrom)`. -/
def dt (tfrom tto : ℚ) : ℚ := (tto - tfrom) / (if tfrom = 0 then 1 else tfrom)

/-- Lines 429-436: the target time after the collapse of a too small step. -/
def collapse (mindt tfrom tto : ℚ) : ℚ :=
  if 0 < dt tfrom tto ∧ dt tfrom tto < mindt then tfrom else tto

/-! ## The grid section (lines 158-242) -/

/-- The inputs of the grid section: the matrix of designs `tgridmatrix` (`cell j i` is the
entry in row `j` of design `i`, `is_na j i` tells that it is `NA`), the design indicator
`whichtg` and the padded times `ptimes`. A `NA` entry has no time in this embedding; the
entries a design reads are the first `tgridn[i]` of its column, which are not `NA` when
the padding stands at the end of the column. -/
structure Grid where
  nrow : Nat
  ncol : Nat
  cell : Nat → Nat → ℚ
  is_na : Nat → Nat → Bool
  whichtg : List Int
  ptimes : List ℚ

/-- Lines 183-190: the number of non-`NA` times of each design. -/
def tgridn (g : Grid) : List Nat :=
  if g.ncol > 1 then
    (List.range g.ncol).map
      (fun i => ((List.range g.nrow).filter (fun j => !g.is_na j i)).length)
  else [g.nrow]

/-- Lines 196-213: the dictionary of observation records, one list for each design. -/
def designs (g : Grid) (nextpos : Int) : List (List datarecord) :=
  (List.range (tgridn g).length).map
    (fun i => (List.range ((tgridn g).getD i 0)).map
      (fun j => datarecord.obs (g.cell j i) nextpos true))

/-- Lines 174-180: the design indicator after the default, and the two checks. -/
def checkDesigns (g : Grid) (NID : Nat) : Except String (List Int) :=
  let tgridi := if g.whichtg.length = 0 then List.replicate NID (0 : Int) else g.whichtg
  if tgridi.length < NID then .error "Length of design indicator less than NID."
  else if tgridi.any (fun d => decide ((g.ncol : Int) ≤ d)) then
    .error "Insufficient number of designs specified for this problem."
  else .ok tgridi

/-- An element of a list at an `int` index; `none` outside of the list. -/
def atInt {α : Type} (l : List α) (z : Int) : Option α :=
  if 0 ≤ z then l[z.toNat]? else none

/-- Lines 219-240, for the stack `stack` of the subject with index `idx`: the records
pushed on the stack (those of the design of the subject, then the padded times) and the
sort of the whole stack. `tgridi[j]` and `tgridn[...]` outside of the vector (undefined
in the source) and the `at` of a missing design end the run. -/
def assembleStack (g : Grid) (tgridi : List Int) (nextpos : Int) (get_uid : Nat → ℚ)
    (get_idata_row : ℚ → Int) (idx : Nat) (stack : List datarecord) :
    Except String (List datarecord × Nat) :=
  let id := get_uid idx
  let j := get_idata_row id
  match atInt tgridi j with
  | none => .error "index out of bounds"
  | some d =>
    match atInt (tgridn g) d, atInt (designs g nextpos) d with
    | some n, some z =>
      if n ≤ z.length then
        .ok (std_sort (stack ++ z.take n ++ g.ptimes.map (fun t => datarecord.obs t nextpos false)),
             n)
      else .error "index out of bounds"
    | _, _ => .error "index out of bounds"

/-- The loop of lines 219-240 over the record list, from the subject with index `idx`
on, with the running value of `obscount`. -/
def assembleLoop (g : Grid) (tgridi : List Int) (nextpos : Int) (get_uid : Nat → ℚ)
    (get_idata_row : ℚ → Int) :
    Nat → List (List datarecord) → Nat → Except String (List (List datarecord) × Nat)
  | _, [], obscount => .ok ([], obscount)
  | idx, stack :: rest, obscount =>
    match assembleStack g tgridi nextpos get_uid get_idata_row idx stack with
    | .error e => .error e
    | .ok sn =>
      match assembleLoop g tgridi nextpos get_uid get_idata_row (idx + 1) rest
          (u32 (obscount + sn.2)) with
      | .error e => .error e
      | .ok ro => .ok (sn.1 :: ro.1, ro.2)

/-- Lines 156-242: the grid section. It runs when the dataset has no observation record
or augmentation is requested (`obsaug` is already the conjunction of line 59); `a` and
`obscount` are the outputs of `get_records`. -/
def gridSection (g : Grid) (put_ev_first obsaug : Bool) (data_nrow : Int)
    (get_uid : Nat → ℚ) (get_idata_row : ℚ → Int) (a : List (List datarecord))
    (obscount : Nat) : Except String (List (List datarecord) × Nat) :=
  if obscount = 0 ∨ obsaug = true then
    match checkDesigns g a.length with
    | .error e => .error e
    | .ok tgridi =>
      assembleLoop g tgridi (nextpos put_ev_first data_nrow) get_uid get_idata_row 0 a obscount
  else .ok (a, obscount)

/-! ## The result matrix -/

/-- A cell value of the numeric result matrix: a number or `NA_REAL`. -/
inductive Cell where
  | num (v : ℚ)
  | NA
  deriving DecidableEq

/-- The assignments `ans(row, col) = val` made for one record, in program order: all of
them are made in the same row, the value of `crow` at that record. -/
structure RowWrite where
  row : Nat
  cells : List (Nat × Cell)
  deriving DecidableEq

/-! ## Inputs of the driver -/

/-- The options and sizes `DEVTRAN` unpacks (lines 53-62, 104-127, 145-147, 153, 260, 267)
that the simulation section reads. `obscount` and `evcount` are the counters after
`get_records` and the grid section. -/
structure Options where
  obsonly : Bool
  mindt : ℚ
  filbak : Bool
  addl_ev_first : Bool
  n_tran_carry : Nat
  n_data_carry : Nat
  n_idata_carry : Nat
  request : List Int
  capture : List Int
  neta : Nat
  neps : Nat
  mtimes : List ℚ
  obscount : Nat
  evcount : Nat

namespace Options

/-- Line 105: `nreq = request.size()`. -/
def nreq (o : Options) : Nat := o.request.length

/-- Line 127: `n_capture = capture.size()-1` (unsigned). -/
def n_capture (o : Options) : Nat := u32 (o.capture.length + (2 ^ 32 - 1))

/-- Line 249: `NN = obsonly ? obscount : (obscount + evcount)`. -/
def NN (o : Options) : Nat :=
  if o.obsonly then u32 o.obscount else u32 (o.obscount + o.evcount)

/-- Line 250: `n_out_col`. -/
def n_out_col (o : Options) : Nat :=
  u32 (2 + o.n_tran_carry + o.n_data_carry + o.n_idata_carry + o.nreq + o.n_capture)

/-- Line 252. -/
def tran_carry_start (_o : Options) : Nat := 2

/-- Line 253. -/
def data_carry_start (o : Options) : Nat := u32 (o.tran_carry_start + o.n_tran_carry)

/-- Line 254. -/
def idata_carry_start (o : Options) : Nat := u32 (o.data_carry_start + o.n_data_carry)

/-- Line 255. -/
def req_start (o : Options) : Nat := u32 (o.idata_carry_start + o.n_idata_carry)

/-- Line 256. -/
def capture_start (o : Options) : Nat := u32 (o.req_start + o.nreq)

end Options

/-! ## The ODE model handle -/

/-- Modelled from the spec: the class `odeproblem` (§3, ODE Model Handle; not in
`devtran.cpp`): "per-subject mutable state including current compartment values,
system off flag, parameter vector, random-effect slots". The members read by the driver
through accessors are fields; `Newind`, `Evid`, `Eta`, `Eps` are the slots written by the
setters `newind`, `evid`, `eta`, `eps`; `Param` and `Mtime` stand for the rest of the
state, which only the external hooks touch. -/
structure odeproblem where
  y : Int → ℚ
  capture : Int → ℚ
  systemoff : Bool
  CFONSTOP : Bool
  fbio : Int → ℚ
  rate : Int → ℚ
  dur : Int → ℚ
  alag : Int → ℚ
  Newind : Nat
  Evid : Int
  Eta : Nat → ℚ
  Eps : Nat → ℚ
  Param : Nat → ℚ
  Mtime : List ℚ

namespace odeproblem

/-- Setter `newind(n)`. -/
def newind (p : odeproblem) (n : Nat) : odeproblem := { p with Newind := n }

/-- Setter `evid(e)`. -/
def set_evid (p : odeproblem) (e : Int) : odeproblem := { p with Evid := e }

/-- The loop `for(k=0; k < neta; ++k) prob->eta(k, eta(i,k))` for the row `row` of `eta`. -/
def set_eta (p : odeproblem) (neta : Nat) (row : Nat → ℚ) : odeproblem :=
  { p with Eta := fun k => if k < neta then row k else p.Eta k }

/-- The loop `for(k=0; k < neps; ++k) prob->eps(k, eps(crow,k))` for the row `row` of
`eps`. -/
def set_eps (p : odeproblem) (neps : Nat) (row : Nat → ℚ) : odeproblem :=
  { p with Eps := fun k => if k < neps then row k else p.Eps k }

end odeproblem

/-- The collaborators of the driver that are not part of `devtran.cpp`, as parameters: the
compiled model reached through `odeproblem` (`init_call`, `init_call_record`, `advance`,
`table_call`), the data objects `dat` and `idat`, the simulated random effects, and the
record methods `is_event`, `implement` and `schedule` (which returns the records it pushes
on the stack). Every theorem below holds for all of them ("every model behaviour"). -/
structure Externals where
  get_uid : Nat → ℚ
  get_idata_row : ℚ → Int
  dat_start : Nat → Int
  eta : Nat → Nat → ℚ
  eps : Nat → Nat → ℚ
  reset_newid : ℚ → odeproblem → odeproblem
  reload_parameters : odeproblem → odeproblem
  idat_copy_parameters : Int → odeproblem → odeproblem
  dat_copy_parameters : Int → odeproblem → odeproblem
  y_init : odeproblem → odeproblem
  copy_inits : Int → odeproblem → odeproblem
  init_call : ℚ → odeproblem → odeproblem
  add_mtime : List datarecord → List ℚ → List ℚ → List datarecord
  init_call_record : ℚ → odeproblem → odeproblem
  advance : ℚ → ℚ → odeproblem → odeproblem
  table_call : odeproblem → odeproblem
  is_event : datarecord → Bool
  implement : datarecord → odeproblem → odeproblem
  schedule : datarecord → List datarecord → ℚ → Bool → List datarecord

/-! ## Carried tran items (lines 274-318) -/

/-- The test `std::find(tcbeg, tcend, name) != tcend` on the requested names. -/
def carries (tran_carry : List String) (name : String) : Bool := tran_carry.contains name

/-- Lines 291-298: the names pushed on `tran_names`; the vector stays empty when no tran
item is requested (line 276). -/
def tran_names (tran_carry : List String) : List String :=
  if tran_carry.length > 0 then
    (if carries tran_carry "evid" then ["evid"] else [])
      ++ (if carries tran_carry "amt" then ["amt"] else [])
      ++ (if carries tran_carry "cmt" then ["cmt"] else [])
      ++ (if carries tran_carry "ss" then ["ss"] else [])
      ++ (if carries tran_carry "ii" then ["ii"] else [])
      ++ (if carries tran_carry "addl" then ["addl"] else [])
      ++ (if carries tran_carry "rate" then ["rate"] else [])
      ++ (if carries tran_carry "a.u.g" then ["a.u.g"] else [])
  else []

/-- One statement `if(carry_x) {ans(crow,n+2) = v; ++n;}`: the assignments so far and the
value of `n`. -/
def carryItem (flag : Bool) (v : ℚ) (c : List (Nat × Cell) × Nat) : List (Nat × Cell) × Nat :=
  if flag then (c.1 ++ [(c.2 + 2, Cell.num v)], c.2 + 1) else c

/-- Lines 306-314: the assignments made for one output record. -/
def tranCells (tran_carry : List String) (nextpos : Int) (obsaug : Bool) (r : datarecord) :
    List (Nat × Cell) :=
  let c : List (Nat × Cell) × Nat := ([], 0)
  let c := carryItem (carries tran_carry "evid") r.Evid c
  let c := carryItem (carries tran_carry "amt") r.Amt c
  let c := carryItem (carries tran_carry "cmt") r.Cmt c
  let c := carryItem (carries tran_carry "ss") r.Ss c
  let c := carryItem (carries tran_carry "ii") r.Ii c
  let c := carryItem (carries tran_carry "addl") r.Addl c
  let c := carryItem (carries tran_carry "rate") r.Rate c
  let c := carryItem (carries tran_carry "a.u.g")
    (if decide (r.Pos = nextpos) && obsaug then 1 else 0) c
  c.1

/-- The inner loop of lines 304-316 over one stack, with the running value of `crow`. -/
def tranCarryStack (tran_carry : List String) (nextpos : Int) (obsaug : Bool) :
    List datarecord → Nat → List RowWrite × Nat
  | [], crow => ([], crow)
  | r :: rest, crow =>
    if !r.output then tranCarryStack tran_carry nextpos obsaug rest crow
    else
      let w : RowWrite := { row := crow, cells := tranCells tran_carry nextpos obsaug r }
      let res := tranCarryStack tran_carry nextpos obsaug rest (u32 (crow + 1))
      (w :: res.1, res.2)

/-- The outer loop of lines 303-317 over the record list. -/
def tranCarryLoop (tran_carry : List String) (nextpos : Int) (obsaug : Bool) :
    List (List datarecord) → Nat → List RowWrite × Nat
  | [], crow => ([], crow)
  | stack :: rest, crow =>
    let r1 := tranCarryStack tran_carry nextpos obsaug stack crow
    let r2 := tranCarryLoop tran_carry nextpos obsaug rest r1.2
    (r1.1 ++ r2.1, r2.2)

/-- Lines 274-318: the assignments to `ans` of the tran carry section (none when no tran
item is requested), from `crow = 0`. -/
def tranCarry (tran_carry : List String) (nextpos : Int) (obsaug : Bool)
    (a : List (List datarecord)) : List RowWrite :=
  if tran_carry.length > 0 then (tranCarryLoop tran_carry nextpos obsaug a 0).1 else []

/-- The canonical sequence of the tran names (§4.5). -/
def canonicalTran : List String := ["evid", "amt", "cmt", "ss", "ii", "addl", "rate", "a.u.g"]

/-- The field of a record a tran name stands for (§4.5): "each populated per output row
as the record's corresponding field"; the augmentation flag is true for a record with the
generic position when augmentation was requested. -/
def tranField (nextpos : Int) (obsaug : Bool) (r : datarecord) (name : String) : ℚ :=
  if name = "evid" then r.Evid
  else if name = "amt" then r.Amt
  else if name = "cmt" then r.Cmt
  else if name = "ss" then r.Ss
  else if name = "ii" then r.Ii
  else if name = "addl" then r.Addl
  else if name = "rate" then r.Rate
  else if name = "a.u.g" then (if decide (r.Pos = nextpos) && obsaug then 1 else 0)
  else 0

/-! ## The dose scheduler section of the driver (lines 450-505) -/

/-- Lines 453-478: bioavailability and resolution of the infusion rate of `this_rec`.
The result is the record after the updates `fn(biofrac)` and `rate(...)`; its field `Fn`
is the local variable `biofrac`. -/
def resolveDose (prob : odeproblem) (this_rec : datarecord) : Except String datarecord :=
  let biofrac := prob.fbio (|this_rec.Cmt| - 1)
  if biofrac < 0 then
    .error "mrgsolve: Bioavailability fraction is less than zero."
  else
    let r0 := this_rec.set_fn biofrac
    if r0.Rate < 0 then
      let first : Except String datarecord :=
        if r0.Rate = -1 then
          if prob.rate (r0.Cmt - 1) ≤ 0 then
            .error "Invalid infusion setting: rate (R_CMT)."
          else .ok (r0.set_rate (prob.rate (r0.Cmt - 1)))
        else .ok r0
      match first with
      | .error e => .error e
      | .ok r1 =>
        if r1.Rate = -2 then
          if prob.dur (r1.Cmt - 1) ≤ 0 then
            .error "Invalid infusion setting: duration (D_CMT)."
          else .ok (r1.set_rate (r1.Amt * biofrac / prob.dur (r1.Cmt - 1)))
        else .ok r1
    else .ok r0

/-- Lines 485-489: the record `newev` spawned for a record `r` (already resolved) with a
lag time. -/
def newev (prob : odeproblem) (r : datarecord) : datarecord :=
  ((((r.set_pos (-1200)).phantom_rec).set_time (r.Time + prob.alag r.Cmt)).set_fn r.Fn)

/-- Lines 491-495: the stack after `this_rec->unarm()` and `a[i].insert(it, newev)` with
`it = a[i].begin()+j+1`, before `newev->schedule(...)`. -/
def insertPhantom (prob : odeproblem) (r : datarecord) (j : Nat) (stack : List datarecord) :
    List datarecord :=
  let a0 := stack.set j r.unarm
  a0.take (j + 1) ++ newev prob r :: a0.drop (j + 1)

/-- Modelled from the spec: `datarecord::needs_sorting()`, read after `schedule` (§4.3
step 4: the tail following the anchor record is re-sorted "if new entries required
insertion mid-sequence"): the tail after index `j`, with the new entries pushed at its
end, is not in the order of the comparator. -/
def needs_sorting (j : Nat) (stack : List datarecord) : Bool :=
  !decide ((stack.drop (j + 1)).Pairwise RecLE)

/-- Lines 480-504, for the resolved record `r` at index `j`: the lag branch and the
branch without lag. Returns the record `this_rec` points to afterwards and the stack. -/
def scheduleRec (o : Options) (X : Externals) (prob : odeproblem) (maxtime : ℚ) (j : Nat)
    (r : datarecord) (stack : List datarecord) : datarecord × List datarecord :=
  if prob.alag r.Cmt > o.mindt then
    let a1 := insertPhantom prob r j stack
    let a2 := a1 ++ X.schedule (newev prob r) a1 maxtime o.addl_ev_first
    (r.unarm, a2.take j ++ std_sort (a2.drop j))
  else
    let a1 := stack.set j r
    let a2 := a1 ++ X.schedule r a1 maxtime o.addl_ev_first
    if needs_sorting j a2 then (r, a2.take (j + 1) ++ std_sort (a2.drop (j + 1)))
    else (r, a2)

/-- Lines 450-505: the dose scheduler section for the record `this_rec` at index `j`. -/
def doseScheduler (o : Options) (X : Externals) (prob : odeproblem) (maxtime : ℚ) (j : Nat)
    (this_rec : datarecord) (stack : List datarecord) :
    Except String (datarecord × List datarecord) :=
  if X.is_event this_rec && this_rec.from_data then
    match resolveDose prob this_rec with
    | .error e => .error e
    | .ok r => .ok (scheduleRec o X prob maxtime j r stack)
  else .ok (this_rec, stack)

/-! ## The per-record loop (lines 393-545) -/

/-- The variables of the simulation section that change from record to record: the model
handle, the stack `a[i]` of the current subject, the output row counter, `tfrom`, and the
assignments made to `ans` so far. -/
structure SimState where
  prob : odeproblem
  stack : List datarecord
  crow : Nat
  tfrom : ℚ
  ans : List RowWrite

/-- The assignments of one output row: id, time, captured items, requested
compartments (lines 407-414 and 519-532). -/
def outRow (o : Options) (prob : odeproblem) (this_rec : datarecord) (crow : Nat) : RowWrite :=
  { row := crow
    cells :=
      [(0, Cell.num this_rec.Id), (1, Cell.num this_rec.Time)]
        ++ (List.range o.n_capture).map
            (fun k => (u32 (k + o.capture_start), Cell.num (prob.capture (o.capture.getD (k + 1) 0))))
        ++ (List.range o.nreq).map
            (fun k => (u32 (k + o.req_start), Cell.num (prob.y (o.request.getD k 0)))) }

/-- Lines 403-421: the body for a record met while the system is off. -/
def systemOffStep (o : Options) (prob : odeproblem) (this_rec : datarecord)
    (stack : List datarecord) (s : SimState) : SimState :=
  if this_rec.output then
    if prob.CFONSTOP then
      { prob := prob, stack := stack, crow := u32 (s.crow + 1), tfrom := s.tfrom,
        ans := s.ans ++ [outRow o prob this_rec s.crow] }
    else
      { prob := prob, stack := stack, crow := u32 (s.crow + 1), tfrom := s.tfrom,
        ans := s.ans ++ [{ row := s.crow, cells := [(0, Cell.NA)] }] }
  else
    { prob := prob, stack := stack, crow := s.crow, tfrom := s.tfrom, ans := s.ans }

/-- Lines 423-447: the model handle when the dose scheduler section is entered, and the
target time `tto`. -/
def preSchedule (o : Options) (X : Externals) (prob : odeproblem) (this_rec : datarecord)
    (crow : Nat) (tfrom : ℚ) : odeproblem × ℚ :=
  let prob := if this_rec.from_data then X.dat_copy_parameters this_rec.Pos prob else prob
  let tto := collapse o.mindt tfrom this_rec.Time
  let prob := if tto > tfrom then prob.set_eps o.neps (X.eps crow) else prob
  let prob := prob.set_evid this_rec.Evid
  (X.init_call_record tto prob, tto)

/-- Lines 507-544: advance, implement, table call, output, reset, for the record
`this_rec` as it is after the dose scheduler section. -/
def postSchedule (o : Options) (X : Externals) (prob : odeproblem) (tto : ℚ)
    (this_rec : datarecord) (stack : List datarecord) (s : SimState) : SimState :=
  let prob := X.advance s.tfrom tto prob
  let prob := if this_rec.Evid ≠ 2 then X.implement this_rec prob else prob
  let prob := X.table_call prob
  let ans := if this_rec.output then s.ans ++ [outRow o prob this_rec s.crow] else s.ans
  let crow := if this_rec.output then u32 (s.crow + 1) else s.crow
  let prob := if this_rec.Evid = 2 then X.implement this_rec prob else prob
  { prob := prob, stack := stack, crow := crow, tfrom := tto, ans := ans }

/-- One iteration of `for(size_t j=0; j < a[i].size(); ++j)` (lines 393-545), for the
subject with identifier `id`. The loop guard makes `j` an index of the stack. -/
def recordStep (o : Options) (X : Externals) (id maxtime : ℚ) (j : Nat) (s : SimState) :
    Except String SimState :=
  if s.crow = o.NN then .ok s
  else
    let prob := if j ≠ 0 then s.prob.newind 2 else s.prob
    match s.stack[j]? with
    | none => .ok s
    | some r =>
      let this_rec := r.set_id id
      let stack := s.stack.set j this_rec
      if prob.systemoff then .ok (systemOffStep o prob this_rec stack s)
      else
        let pt := preSchedule o X prob this_rec s.crow s.tfrom
        match doseScheduler o X pt.1 maxtime j this_rec stack with
        | .error e => .error e
        | .ok rs => .ok (postSchedule o X pt.1 pt.2 rs.1 rs.2 s)

/-- The record loop of one subject, started at index `j`: at most `fuel` iterations are
run, the state reached is returned. A fatal error ends the run. -/
def recordLoop (o : Options) (X : Externals) (id maxtime : ℚ) :
    Nat → Nat → SimState → Except String SimState
  | 0, _, s => .ok s
  | fuel + 1, j, s =>
    if j < s.stack.length then
      match recordStep o X id maxtime j s with
      | .error e => .error e
      | .ok s1 => recordLoop o X id maxtime fuel (j + 1) s1
    else .ok s

/-! ## The loop across subjects (lines 329-546) -/

/-- The variables that pass from one subject to the next: the model handle, the row
counter, the assignments to `ans`, and the stacks of the subjects already simulated. -/
structure Run where
  prob : odeproblem
  crow : Nat
  ans : List RowWrite
  a : List (List datarecord)

/-- Lines 348-390: set-up for subject `i` with stack `stack`: the start time, `maxtime`,
the identifier and the model handle after the initialisation calls, and the stack after
`add_mtime`. `front()` and `back()` of an empty stack are undefined in the source; the
embedding reads time 0 there. -/
def subjectInit (o : Options) (X : Externals) (i : Nat) (stack : List datarecord) (g : Run) :
    ℚ × ℚ × SimState :=
  let tfrom := (stack.head?.map (·.Time)).getD 0
  let maxtime := (stack.getLast?.map (·.Time)).getD 0
  let id := X.get_uid i
  let this_idata_row := X.get_idata_row id
  let prob := X.reset_newid id g.prob
  let prob := if i = 0 then prob.newind 0 else prob
  let prob := prob.set_eta o.neta (X.eta i)
  let prob := prob.set_eps o.neps (X.eps g.crow)
  let prob := X.reload_parameters prob
  let prob := X.idat_copy_parameters this_idata_row prob
  let prob :=
    match stack.head? with
    | some r0 =>
      if r0.from_data then X.dat_copy_parameters r0.Pos prob
      else if o.filbak then X.dat_copy_parameters (X.dat_start i) prob else prob
    | none => prob
  let prob := X.y_init prob
  let prob := X.copy_inits this_idata_row prob
  let prob := X.init_call tfrom prob
  let stack := if o.mtimes.length > 0 then X.add_mtime stack o.mtimes prob.Mtime else stack
  (id, maxtime, { prob := prob, stack := stack, crow := g.crow, tfrom := tfrom, ans := g.ans })

/-- The body of `for(size_t i=0; i < a.size(); ++i)` for subject `i`. -/
def subjectRun (o : Options) (X : Externals) (fuel : Nat) (i : Nat) (stack : List datarecord)
    (g : Run) : Except String SimState :=
  let ini := subjectInit o X i stack g
  recordLoop o X ini.1 ini.2.1 fuel 0 ini.2.2

/-- The loop across subjects from subject `i` on, over the stacks not yet simulated. -/
def subjects (o : Options) (X : Externals) (fuel : Nat) :
    Nat → List (List datarecord) → Run → Except String Run
  | _, [], g => .ok g
  | i, stack :: rest, g =>
    match subjectRun o X fuel i stack g with
    | .error e => .error e
    | .ok s =>
      subjects o X fuel (i + 1) rest
        { prob := s.prob, crow := s.crow, ans := s.ans, a := g.a ++ [s.stack] }

/-- The simulation section of `DEVTRAN` (lines 329-546) on the record list `a`, from
`crow = 0` (line 330) and an untouched result matrix. -/
def simulate (o : Options) (X : Externals) (fuel : Nat) (a : List (List datarecord))
    (prob : odeproblem) : Except String Run :=
  subjects o X fuel 0 a { prob := prob, crow := 0, ans := [], a := [] }

/-! ## Auxiliary definitions for the statements -/

/-- The invariant of the output row counter and of the rows assigned so far: the counter
is at most `NN`, the rows assigned are `0, 1, ..., crow - 1` in this order, and each is
either a full output row or the row of the missing-value marker. -/
def RowInv (o : Options) (crow : Nat) (ans : List RowWrite) : Prop :=
  crow ≤ o.NN ∧ ans.map (·.row) = List.range crow ∧
    ∀ w ∈ ans, (∃ p r, w = outRow o p r w.row) ∨ w.cells = [(0, Cell.NA)]

/-- A computation ended without a fatal error. -/
def isOk {α : Type} (x : Except String α) : Bool :=
  match x with
  | .ok _ => true
  | .error _ => false

/-! ## Concrete inputs -/

def demoProb : odeproblem :=
  { y := fun _ => 0, capture := fun _ => 0, systemoff := false, CFONSTOP := true,
    fbio := fun _ => 1, rate := fun _ => 5, dur := fun _ => 4, alag := fun _ => 0,
    Newind := 0, Evid := 0, Eta := fun _ => 0, Eps := fun _ => 0, Param := fun _ => 0,
    Mtime := [] }

def demoX : Externals :=
  { get_uid := fun _ => 1, get_idata_row := fun _ => 0, dat_start := fun _ => 0,
    eta := fun _ _ => 0, eps := fun _ _ => 0,
    reset_newid := fun _ p => p, reload_parameters := fun p => p,
    idat_copy_parameters := fun _ p => p, dat_copy_parameters := fun _ p => p,
    y_init := fun p => p, copy_inits := fun _ p => p, init_call := fun _ p => p,
    add_mtime := fun l _ _ => l, init_call_record := fun _ p => p,
    advance := fun _ _ p => p, table_call := fun p => p,
    is_event := fun r => decide (r.Evid = 1), implement := fun _ p => p,
    schedule := fun _ _ _ _ => [] }

def demoOpts : Options :=
  { obsonly := false, mindt := 0, filbak := false, addl_ev_first := true,
    n_tran_carry := 0, n_data_carry := 0, n_idata_carry := 0, request := [0], capture := [0],
    neta := 0, neps := 0, mtimes := [], obscount := 1, evcount := 1 }

def demoDose : datarecord :=
  { Time := 0, Pos := 0, Evid := 1, Cmt := 1, Amt := 100, Rate := -2, Ii := 0, Addl := 0,
    Ss := 0, Fn := 1, Id := 1, Armed := true, Phantom := false, Fromdata := true,
    Output := true }

def demoObs : datarecord := datarecord.obs 1 (-100) true


/-- The column blocks of the result matrix as pairs (first column, width), in the order
of §4.5: id, time, carried tran items, carried data items, carried idata items, requested
compartments, captured items. -/
def blocks (o : Options) : List (Nat × Nat) :=
  [(0, 1), (1, 1), (o.tran_carry_start, o.n_tran_carry), (o.data_carry_start, o.n_data_carry),
    (o.idata_carry_start, o.n_idata_carry), (o.req_start, o.nreq),
    (o.capture_start, o.n_capture)]

/-- The record loop as it runs once the system is off (§4.4, SYSTEM_OFF; §8, Shutoff
behavior): every record met with `crow ≠ NN` goes through the system-off body only. No
external collaborator occurs in it. -/
def offLoop (o : Options) (id : ℚ) : Nat → Nat → SimState → SimState
  | 0, _, s => s
  | fuel + 1, j, s =>
    match s.stack[j]? with
    | none => s
    | some r =>
      if s.crow = o.NN then offLoop o id fuel (j + 1) s
      else
        offLoop o id fuel (j + 1)
          (systemOffStep o (if j ≠ 0 then s.prob.newind 2 else s.prob) (r.set_id id)
            (s.stack.set j (r.set_id id)) s)

/-- The model handle `demoProb` with a lag time of 2 for every compartment. -/
def demoLagProb : odeproblem := { demoProb with alag := fun _ => 2 }

/-- The records the scheduler pushes on the stack in the branch taken for the resolved
record `r1` at index `j` (lines 496 and 500). -/
def appended (o : Options) (X : Externals) (prob : odeproblem) (maxtime : ℚ) (j : Nat)
    (r1 : datarecord) (stack : List datarecord) : List datarecord :=
  if prob.alag r1.Cmt > o.mindt then
    X.schedule (newev prob r1) (insertPhantom prob r1 j stack) maxtime o.addl_ev_first
  else X.schedule r1 (stack.set j r1) maxtime o.addl_ev_first

/-- A dataset dose record at time 1, dataset row 5, compartment 1. -/
def tieDose : datarecord := { demoDose with Time := 1, Pos := 5, Rate := 0 }

/-- A dataset observation record at time 1 with the smaller position 3. -/
def tieObs : datarecord :=
  { datarecord.obs 1 3 true with Fromdata := true }

/-- A generated dose record at time 1 with position -600. -/
def tieAddl : datarecord :=
  { demoDose with Time := 1, Pos := -600, Rate := 0, Fromdata := false }

/-- The collaborators `demoX` with a scheduler that pushes the record `tieAddl`. -/
def tieX : Externals := { demoX with schedule := fun _ _ _ _ => [tieAddl] }

/-- A grid with one design of the two times 0 and 1 and no padded time. -/
def demoGrid : Grid :=
  { nrow := 2, ncol := 1, cell := fun j _ => (j : ℚ), is_na := fun _ _ => false,
    whichtg := [], ptimes := [] }

/-- The eight statements of lines 307-314 as a table: the flag, the name, and the value
assigned for the record. -/
def tranItems (tran_carry : List String) (nextpos : Int) (obsaug : Bool) (r : datarecord) :
    List (Bool × String × ℚ) :=
  [(carries tran_carry "evid", "evid", r.Evid), (carries tran_carry "amt", "amt", r.Amt),
    (carries tran_carry "cmt", "cmt", r.Cmt), (carries tran_carry "ss", "ss", r.Ss),
    (carries tran_carry "ii", "ii", r.Ii), (carries tran_carry "addl", "addl", r.Addl),
    (carries tran_carry "rate", "rate", r.Rate),
    (carries tran_carry "a.u.g", "a.u.g", if decide (r.Pos = nextpos) && obsaug then 1 else 0)]

/-- The output-eligible records of the record list, subject after subject, in stack
order. -/
def outputRecords (a : List (List datarecord)) : List datarecord :=
  a.flatten.filter (fun r => r.output)

/-- The row assigned for an output record met while the system is off (lines 405-418):
the full row when the model permits continued output, the missing-value marker in
column 0 otherwise. -/
def offRow (o : Options) (prob : odeproblem) (id : ℚ) (row : Nat) (r : datarecord) :
    RowWrite :=
  if prob.CFONSTOP then outRow o prob (r.set_id id) row
  else { row := row, cells := [(0, Cell.NA)] }

/-- The design indicator the grid section works with (lines 172-174): `whichtg`, or zeros
for every subject when it is empty. -/
def designIndicator (g : Grid) (NID : Nat) : List Int :=
  if g.whichtg.length = 0 then List.replicate NID (0 : Int) else g.whichtg

/-- The records the grid section generates for the subject with index `idx` (§4.2: "the
shared Design Template records plus the padded-time records"): an output observation at
each of the first `tgridn[d]` times of the design `d` of the subject, then a non-output
observation at each padded time, all with the generic position. -/
def generatedFor (g : Grid) (tgridi : List Int) (nextpos : Int) (get_uid : Nat → ℚ)
    (get_idata_row : ℚ → Int) (idx : Nat) : List datarecord :=
  match atInt tgridi (get_idata_row (get_uid idx)) with
  | none => []
  | some d =>
    match atInt (tgridn g) d with
    | none => []
    | some n =>
      (List.range n).map (fun h => datarecord.obs (g.cell h d.toNat) nextpos true)
        ++ g.ptimes.map (fun t => datarecord.obs t nextpos false)

/-! # Theorems -/

/-! ## The output row counter -/

theorem NN_lt (o : Options) : o.NN < 2 ^ 32 := by
  unfold Options.NN u32
  split <;> exact Nat.mod_lt _ (by norm_num)

theorem u32_of_lt {n : Nat} (h : n < 2 ^ 32) : u32 n = n := Nat.mod_eq_of_lt h

theorem RowInv.push {o : Options} {crow : Nat} {ans : List RowWrite} (h : RowInv o crow ans)
    (hne : crow ≠ o.NN) (w : RowWrite) (hrow : w.row = crow)
    (hw : (∃ p r, w = outRow o p r w.row) ∨ w.cells = [(0, Cell.NA)]) :
    RowInv o (u32 (crow + 1)) (ans ++ [w]) := by
  obtain ⟨h1, h2, h3⟩ := h
  have hlt : crow < o.NN := lt_of_le_of_ne h1 hne
  have hu : u32 (crow + 1) = crow + 1 := u32_of_lt (lt_of_le_of_lt hlt (NN_lt o))
  rw [hu]
  refine ⟨hlt, ?_, ?_⟩
  · simp [List.range_succ, h2, hrow]
  · intro x hx
    rcases List.mem_append.1 hx with hx | hx
    · exact h3 x hx
    · simp at hx; subst hx; exact hw

theorem systemOffStep_inv {o : Options} (prob : odeproblem) (r : datarecord)
    (stack : List datarecord) (s : SimState) (h : RowInv o s.crow s.ans) (hne : s.crow ≠ o.NN) :
    RowInv o (systemOffStep o prob r stack s).crow (systemOffStep o prob r stack s).ans := by
  unfold systemOffStep
  split
  · split
    · exact h.push hne _ rfl (Or.inl ⟨prob, r, rfl⟩)
    · exact h.push hne _ rfl (Or.inr rfl)
  · exact h

theorem postSchedule_inv {o : Options} (X : Externals) (prob : odeproblem) (tto : ℚ)
    (r : datarecord) (stack : List datarecord) (s : SimState) (h : RowInv o s.crow s.ans)
    (hne : s.crow ≠ o.NN) :
    RowInv o (postSchedule o X prob tto r stack s).crow (postSchedule o X prob tto r stack s).ans := by
  unfold postSchedule
  by_cases ho : r.output = true
  · simp only [ho, if_true]
    exact h.push hne _ rfl (Or.inl ⟨_, r, rfl⟩)
  · simp only [ho]
    exact h

theorem recordStep_skip {o : Options} (X : Externals) (id maxtime : ℚ) (j : Nat)
    {s : SimState} (h : s.crow = o.NN) : recordStep o X id maxtime j s = .ok s := by
  simp [recordStep, h]

theorem recordStep_off {o : Options} (X : Externals) (id maxtime : ℚ) {j : Nat}
    {s : SimState} {r : datarecord} (h : s.crow ≠ o.NN) (hr : s.stack[j]? = some r)
    (hoff : (if j ≠ 0 then s.prob.newind 2 else s.prob).systemoff = true) :
    recordStep o X id maxtime j s
      = .ok (systemOffStep o (if j ≠ 0 then s.prob.newind 2 else s.prob) (r.set_id id)
          (s.stack.set j (r.set_id id)) s) := by
  simp only [recordStep, h, hr, if_false]
  simp only [hoff, if_true]

theorem recordStep_on {o : Options} (X : Externals) (id maxtime : ℚ) {j : Nat}
    {s : SimState} {r : datarecord} (h : s.crow ≠ o.NN) (hr : s.stack[j]? = some r)
    (hoff : (if j ≠ 0 then s.prob.newind 2 else s.prob).systemoff = false) :
    recordStep o X id maxtime j s
      = match doseScheduler o X
            (preSchedule o X (if j ≠ 0 then s.prob.newind 2 else s.prob) (r.set_id id)
              s.crow s.tfrom).1 maxtime j (r.set_id id) (s.stack.set j (r.set_id id)) with
        | .error e => .error e
        | .ok rs =>
          .ok (postSchedule o X
            (preSchedule o X (if j ≠ 0 then s.prob.newind 2 else s.prob) (r.set_id id)
              s.crow s.tfrom).1
            (preSchedule o X (if j ≠ 0 then s.prob.newind 2 else s.prob) (r.set_id id)
              s.crow s.tfrom).2 rs.1 rs.2 s) := by
  simp only [recordStep, h, hr, if_false]
  simp only [hoff]
  rfl

theorem recordStep_none {o : Options} (X : Externals) (id maxtime : ℚ) {j : Nat}
    {s : SimState} (hr : s.stack[j]? = none) : recordStep o X id maxtime j s = .ok s := by
  simp only [recordStep, hr]
  split <;> rfl

theorem recordStep_inv {o : Options} {X : Externals} {id maxtime : ℚ} {j : Nat}
    {s s1 : SimState} (h : RowInv o s.crow s.ans)
    (hs : recordStep o X id maxtime j s = .ok s1) : RowInv o s1.crow s1.ans := by
  by_cases hne : s.crow = o.NN
  · rw [recordStep_skip X id maxtime j hne] at hs; cases hs; exact h
  · cases hr : s.stack[j]? with
    | none => rw [recordStep_none X id maxtime hr] at hs; cases hs; exact h
    | some r =>
      cases hoff : (if j ≠ 0 then s.prob.newind 2 else s.prob).systemoff with
      | true =>
        rw [recordStep_off X id maxtime hne hr hoff] at hs
        cases hs; exact systemOffStep_inv _ _ _ _ h hne
      | false =>
        rw [recordStep_on X id maxtime hne hr hoff] at hs
        split at hs
        · cases hs
        · cases hs; exact postSchedule_inv _ _ _ _ _ _ h hne

theorem recordLoop_inv {o : Options} {X : Externals} {id maxtime : ℚ} (fuel : Nat) :
    ∀ (j : Nat) (s s1 : SimState), RowInv o s.crow s.ans →
      recordLoop o X id maxtime fuel j s = .ok s1 → RowInv o s1.crow s1.ans := by
  induction fuel with
  | zero => intro j s s1 h hs; simp [recordLoop] at hs; cases hs; exact h
  | succ n ih =>
    intro j s s1 h hs
    unfold recordLoop at hs
    split at hs
    · split at hs
      · cases hs
      · rename_i s2 h2
        exact ih _ _ _ (recordStep_inv h h2) hs
    · cases hs; exact h

theorem subjects_inv {o : Options} {X : Externals} (fuel : Nat) :
    ∀ (a : List (List datarecord)) (i : Nat) (g g1 : Run), RowInv o g.crow g.ans →
      subjects o X fuel i a g = .ok g1 → RowInv o g1.crow g1.ans := by
  intro a
  induction a with
  | nil => intro i g g1 h hs; simp [subjects] at hs; cases hs; exact h
  | cons st rest ih =>
    intro i g g1 h hs
    unfold subjects at hs
    split at hs
    · cases hs
    · rename_i s hsr
      refine ih _ _ _ ?_ hs
      unfold subjectRun at hsr
      exact recordLoop_inv fuel _ _ _ h hsr

theorem exists_ok_of_isOk {α : Type} {x : Except String α} (h : isOk x = true) :
    ∃ v, x = .ok v := by
  cases x with
  | ok v => exact ⟨v, rfl⟩
  | error e => simp [isOk] at h

theorem systemOffStep_crow (o : Options) (prob : odeproblem) (r : datarecord)
    (stack : List datarecord) (s : SimState) (hlt : s.crow < o.NN) :
    (systemOffStep o prob r stack s).crow = s.crow + (if r.output then 1 else 0) := by
  have hu : u32 (s.crow + 1) = s.crow + 1 := u32_of_lt (lt_of_le_of_lt hlt (NN_lt o))
  unfold systemOffStep
  split
  · split <;> simp [hu]
  · simp

theorem postSchedule_crow (o : Options) (X : Externals) (prob : odeproblem) (tto : ℚ)
    (r : datarecord) (stack : List datarecord) (s : SimState) (hlt : s.crow < o.NN) :
    (postSchedule o X prob tto r stack s).crow = s.crow + (if r.output then 1 else 0) := by
  have hu : u32 (s.crow + 1) = s.crow + 1 := u32_of_lt (lt_of_le_of_lt hlt (NN_lt o))
  unfold postSchedule
  by_cases ho : r.output = true <;> simp [ho, hu]

/-- C1. Row counter of the record loop: a record met with `crow = NN` is skipped
entirely; otherwise, in the system-off path and in the normal path alike, `crow` grows by
exactly one when the record is output-eligible and stays when it is not. Hence every
record step keeps the invariant `RowInv` (`crow ≤ NN`, the rows assigned are
`0, ..., crow - 1` in this order), and for every record list and all external behaviour,
after the simulation section `crow ≤ NN`, every row written has index `< NN`, and the
rows written are `0, 1, 2, ...` in processing order. -/
theorem C1_row_counter (o : Options) (X : Externals) :
    (∀ (id maxtime : ℚ) (j : Nat) (s : SimState), s.crow = o.NN →
        recordStep o X id maxtime j s = .ok s) ∧
    (∀ (id maxtime : ℚ) (j : Nat) (s : SimState) (r : datarecord),
        s.crow ≤ o.NN → s.crow ≠ o.NN → s.stack[j]? = some r →
        (if j ≠ 0 then s.prob.newind 2 else s.prob).systemoff = true →
        ∃ s1, recordStep o X id maxtime j s = .ok s1 ∧
          s1.crow = s.crow + (if r.output then 1 else 0)) ∧
    (∀ (id maxtime : ℚ) (j : Nat) (s : SimState) (r : datarecord)
        (rs : datarecord × List datarecord),
        s.crow ≤ o.NN → s.crow ≠ o.NN → s.stack[j]? = some r →
        (if j ≠ 0 then s.prob.newind 2 else s.prob).systemoff = false →
        doseScheduler o X
          (preSchedule o X (if j ≠ 0 then s.prob.newind 2 else s.prob) (r.set_id id)
            s.crow s.tfrom).1 maxtime j (r.set_id id) (s.stack.set j (r.set_id id)) = .ok rs →
        ∃ s1, recordStep o X id maxtime j s = .ok s1 ∧
          s1.crow = s.crow + (if rs.1.output then 1 else 0)) ∧
    (∀ (id maxtime : ℚ) (j : Nat) (s s1 : SimState),
        RowInv o s.crow s.ans → recordStep o X id maxtime j s = .ok s1 →
        RowInv o s1.crow s1.ans) ∧
    (∀ (fuel : Nat) (a : List (List datarecord)) (prob : odeproblem) (g : Run),
        simulate o X fuel a prob = .ok g →
        g.crow ≤ o.NN ∧ (∀ w ∈ g.ans, w.row < o.NN) ∧
          g.ans.map (·.row) = List.range g.crow) := by
  refine ⟨fun id maxtime j s h => recordStep_skip X id maxtime j h, ?_, ?_,
    fun id maxtime j s s1 h hs => recordStep_inv h hs, ?_⟩
  · intro id maxtime j s r hle hne hr hoff
    refine ⟨_, recordStep_off X id maxtime hne hr hoff, ?_⟩
    exact systemOffStep_crow o _ _ _ s (lt_of_le_of_ne hle hne)
  · intro id maxtime j s r rs hle hne hr hoff hd
    rw [recordStep_on X id maxtime hne hr hoff, hd]
    exact ⟨_, rfl, postSchedule_crow o X _ _ _ _ s (lt_of_le_of_ne hle hne)⟩
  · intro fuel a prob g hg
    have h0 : RowInv o 0 [] := ⟨Nat.zero_le _, rfl, by simp⟩
    have hinv : RowInv o g.crow g.ans :=
      subjects_inv fuel a 0 { prob := prob, crow := 0, ans := [], a := [] } g h0 hg
    obtain ⟨h1, h2, -⟩ := hinv
    refine ⟨h1, ?_, h2⟩
    intro w hw
    have hm : w.row ∈ g.ans.map (·.row) := List.mem_map_of_mem _ hw
    rw [h2, List.mem_range] at hm
    exact lt_of_lt_of_le hm h1

/-- The row counter on the run of one subject with a dose record and an observation: the
run succeeds and the invariant holds at its end. -/
theorem C1_row_counter_witness :
    ∃ g, simulate demoOpts demoX 5 [[demoDose, demoObs]] demoProb = .ok g ∧
      g.crow ≤ demoOpts.NN ∧ (∀ w ∈ g.ans, w.row < demoOpts.NN) ∧
      g.ans.map (·.row) = List.range g.crow := by
  obtain ⟨g, hg⟩ := exists_ok_of_isOk
    (by decide! : isOk (simulate demoOpts demoX 5 [[demoDose, demoObs]] demoProb) = true)
  exact ⟨g, hg, (C1_row_counter demoOpts demoX).2.2.2.2 5 _ demoProb g hg⟩

/-! ## The relative step -/

/-- C10. The relative step computed at line 430 is negative for a negative `tfrom`: with
`tfrom = -1 ≤ tto = 1` the driver computes `dt = -2`, against the comment of line 433
("dt is never negative"). As a consequence the collapse of a too small step (lines
434-436) is not made after a negative time: with `mindt = 1/10` the step from `-1` to
`-99/100` is kept, while the step from `1` to `101/100` is collapsed. -/
theorem C10_dt_negative_for_negative_tfrom :
    (-1 : ℚ) ≤ 1 ∧ dt (-1) 1 = -2 ∧ ¬ (0 ≤ dt (-1) 1) ∧
      collapse (1 / 10) (-1) (-99 / 100) = -99 / 100 ∧ collapse (1 / 10) 1 (101 / 100) = 1 := by
  refine ⟨by norm_num, ?_, ?_, ?_, ?_⟩ <;> norm_num [dt, collapse]

/-! ## The column layout -/

theorem layout_values (o : Options) (hcap : 1 ≤ o.capture.length)
    (hfit : 2 + o.n_tran_carry + o.n_data_carry + o.n_idata_carry + o.nreq
      + (o.capture.length - 1) < 2 ^ 32) :
    o.n_capture = o.capture.length - 1 ∧
    o.n_out_col = 2 + o.n_tran_carry + o.n_data_carry + o.n_idata_carry + o.nreq
      + (o.capture.length - 1) ∧
    o.data_carry_start = 2 + o.n_tran_carry ∧
    o.idata_carry_start = 2 + o.n_tran_carry + o.n_data_carry ∧
    o.req_start = 2 + o.n_tran_carry + o.n_data_carry + o.n_idata_carry ∧
    o.capture_start = 2 + o.n_tran_carry + o.n_data_carry + o.n_idata_carry + o.nreq := by
  have hc : o.n_capture = o.capture.length - 1 := by
    unfold Options.n_capture u32
    have : o.capture.length + (2 ^ 32 - 1) = (o.capture.length - 1) + 2 ^ 32 := by omega
    rw [this, Nat.add_mod_right]
    exact Nat.mod_eq_of_lt (by omega)
  have h1 : o.data_carry_start = 2 + o.n_tran_carry := by
    unfold Options.data_carry_start Options.tran_carry_start
    exact u32_of_lt (by omega)
  have h2 : o.idata_carry_start = 2 + o.n_tran_carry + o.n_data_carry := by
    unfold Options.idata_carry_start
    rw [h1]; exact u32_of_lt (by omega)
  have h3 : o.req_start = 2 + o.n_tran_carry + o.n_data_carry + o.n_idata_carry := by
    unfold Options.req_start
    rw [h2]; exact u32_of_lt (by omega)
  have h4 : o.capture_start
      = 2 + o.n_tran_carry + o.n_data_carry + o.n_idata_carry + o.nreq := by
    unfold Options.capture_start
    rw [h3]; exact u32_of_lt (by omega)
  refine ⟨hc, ?_, h1, h2, h3, h4⟩
  unfold Options.n_out_col
  rw [hc]; exact u32_of_lt hfit

/-- C8. Column layout. When the capture vector holds its leading entry (line 130 reads
`capture.at(0)`) and the column count fits an `unsigned int`, the matrix has
`2 + T + D + I + R + C` columns with `C = capture.size() - 1`; the blocks start at
`2`, `2+T`, `2+T+D`, `2+T+D+I`, `2+T+D+I+R`, each block starts where the one before it
ends (so they are contiguous and pairwise disjoint) and the last one ends at the column
count; an output row holds requested compartment `k` in column `2+T+D+I+k` and captured
item `k` in column `2+T+D+I+R+k`; every assignment of the simulation section lies inside
the `NN` by `n_out_col` matrix. -/
theorem C8_column_layout (o : Options) (hcap : 1 ≤ o.capture.length)
    (hfit : 2 + o.n_tran_carry + o.n_data_carry + o.n_idata_carry + o.nreq
      + (o.capture.length - 1) < 2 ^ 32) :
    o.n_capture = o.capture.length - 1 ∧
    o.n_out_col
      = 2 + o.n_tran_carry + o.n_data_carry + o.n_idata_carry + o.nreq + o.n_capture ∧
    o.tran_carry_start = 2 ∧
    o.data_carry_start = 2 + o.n_tran_carry ∧
    o.idata_carry_start = 2 + o.n_tran_carry + o.n_data_carry ∧
    o.req_start = 2 + o.n_tran_carry + o.n_data_carry + o.n_idata_carry ∧
    o.capture_start = 2 + o.n_tran_carry + o.n_data_carry + o.n_idata_carry + o.nreq ∧
    (blocks o).Chain' (fun b c => b.1 + b.2 = c.1) ∧
    (blocks o).Pairwise (fun b c => b.1 + b.2 ≤ c.1) ∧
    o.capture_start + o.n_capture = o.n_out_col ∧
    (∀ (prob : odeproblem) (r : datarecord) (crow : Nat),
      (outRow o prob r crow).row = crow ∧
      (outRow o prob r crow).cells
        = [(0, Cell.num r.Id), (1, Cell.num r.Time)]
          ++ (List.range o.n_capture).map (fun k =>
              (2 + o.n_tran_carry + o.n_data_carry + o.n_idata_carry + o.nreq + k,
                Cell.num (prob.capture (o.capture.getD (k + 1) 0))))
          ++ (List.range o.nreq).map (fun k =>
              (2 + o.n_tran_carry + o.n_data_carry + o.n_idata_carry + k,
                Cell.num (prob.y (o.request.getD k 0))))) ∧
    (∀ (X : Externals) (fuel : Nat) (a : List (List datarecord)) (prob : odeproblem) (g : Run),
      simulate o X fuel a prob = .ok g →
      ∀ w ∈ g.ans, w.row < o.NN ∧ ∀ c ∈ w.cells, c.1 < o.n_out_col) := by
  obtain ⟨hc, hn, h1, h2, h3, h4⟩ := layout_values o hcap hfit
  have hcells : ∀ (prob : odeproblem) (r : datarecord) (crow : Nat),
      (outRow o prob r crow).cells
        = [(0, Cell.num r.Id), (1, Cell.num r.Time)]
          ++ (List.range o.n_capture).map (fun k =>
              (2 + o.n_tran_carry + o.n_data_carry + o.n_idata_carry + o.nreq + k,
                Cell.num (prob.capture (o.capture.getD (k + 1) 0))))
          ++ (List.range o.nreq).map (fun k =>
              (2 + o.n_tran_carry + o.n_data_carry + o.n_idata_carry + k,
                Cell.num (prob.y (o.request.getD k 0)))) := by
    intro prob r crow
    have e1 : (List.range o.n_capture).map
          (fun k => (u32 (k + o.capture_start),
            Cell.num (prob.capture (o.capture.getD (k + 1) 0))))
        = (List.range o.n_capture).map (fun k =>
            (2 + o.n_tran_carry + o.n_data_carry + o.n_idata_carry + o.nreq + k,
              Cell.num (prob.capture (o.capture.getD (k + 1) 0)))) := by
      apply List.map_congr_left
      intro k hk
      rw [List.mem_range, hc] at hk
      rw [h4, u32_of_lt (by omega), Nat.add_comm]
    have e2 : (List.range o.nreq).map
          (fun k => (u32 (k + o.req_start), Cell.num (prob.y (o.request.getD k 0))))
        = (List.range o.nreq).map (fun k =>
            (2 + o.n_tran_carry + o.n_data_carry + o.n_idata_carry + k,
              Cell.num (prob.y (o.request.getD k 0)))) := by
      apply List.map_congr_left
      intro k hk
      rw [List.mem_range] at hk
      rw [h3, u32_of_lt (by omega), Nat.add_comm]
    show _ ++ _ ++ _ = _
    rw [e1, e2]
  refine ⟨hc, by rw [hn, hc], rfl, h1, h2, h3, h4, ?_, ?_, by rw [h4, hn, hc], ?_, ?_⟩
  · simp only [blocks, Options.tran_carry_start, h1, h2, h3, h4, List.chain'_cons,
      List.chain'_singleton, and_true]
  · simp only [blocks, Options.tran_carry_start, h1, h2, h3, h4, List.pairwise_cons,
      List.mem_cons, List.mem_singleton, forall_eq_or_imp, forall_eq, List.not_mem_nil,
      List.Pairwise.nil, and_true]
    simp
    omega
  · intro prob r crow
    exact ⟨rfl, hcells prob r crow⟩
  · intro X fuel a prob g hg
    have h0 : RowInv o 0 [] := ⟨Nat.zero_le _, rfl, by simp⟩
    obtain ⟨i1, i2, i3⟩ :=
      subjects_inv fuel a 0 { prob := prob, crow := 0, ans := [], a := [] } g h0 hg
    intro w hw
    constructor
    · have hm : w.row ∈ g.ans.map (·.row) := List.mem_map_of_mem _ hw
      rw [i2, List.mem_range] at hm
      exact lt_of_lt_of_le hm i1
    · intro c hcm
      rcases i3 w hw with ⟨p, r, hpr⟩ | hna
      · rw [hpr, hcells] at hcm
        simp only [List.mem_append, List.mem_cons, List.mem_map, List.mem_range,
          List.mem_singleton, List.not_mem_nil, or_false] at hcm
        rcases hcm with ((rfl | rfl) | ⟨k, hk, rfl⟩) | ⟨k, hk, rfl⟩
        · simp only; omega
        · simp only; omega
        · simp only; omega
        · simp only; omega
      · rw [hna] at hcm
        simp only [List.mem_singleton] at hcm
        subst hcm
        simp only; omega

/-- The layout for one requested compartment and no captured item: three columns. -/
theorem C8_column_layout_witness :
    demoOpts.n_out_col = 3 ∧ demoOpts.req_start = 2 ∧ demoOpts.capture_start = 3 := by
  have h := C8_column_layout demoOpts (by decide) (by decide)
  refine ⟨?_, ?_, ?_⟩
  · rw [h.2.1, h.1]; decide
  · rw [h.2.2.2.2.2.1]; decide
  · rw [h.2.2.2.2.2.2.1]; decide

/-! ## Resolution of the infusion rate -/

theorem doseScheduler_of_resolve_ok {o : Options} {X : Externals} {prob : odeproblem}
    {maxtime : ℚ} {j : Nat} {r r1 : datarecord} {stack : List datarecord}
    (hev : X.is_event r = true) (hfd : r.from_data = true)
    (h : resolveDose prob r = .ok r1) :
    doseScheduler o X prob maxtime j r stack = .ok (scheduleRec o X prob maxtime j r1 stack) := by
  simp [doseScheduler, hev, hfd, h]

theorem doseScheduler_of_resolve_error {o : Options} {X : Externals} {prob : odeproblem}
    {maxtime : ℚ} {j : Nat} {r : datarecord} {stack : List datarecord} {e : String}
    (hev : X.is_event r = true) (hfd : r.from_data = true)
    (h : resolveDose prob r = .error e) :
    doseScheduler o X prob maxtime j r stack = .error e := by
  simp [doseScheduler, hev, hfd, h]

theorem scheduleRec_rate (o : Options) (X : Externals) (prob : odeproblem) (maxtime : ℚ)
    (j : Nat) (r : datarecord) (stack : List datarecord) :
    (scheduleRec o X prob maxtime j r stack).1.Rate = r.Rate := by
  unfold scheduleRec
  dsimp only
  split
  · rfl
  · split <;> rfl

/-- C3. Infusion resolution (lines 450-478). For a dataset-sourced dose record `r` whose
bioavailability is non-negative: with rate `-1` and a model rate `R > 0` the rate of the
record becomes `R`; with rate `-2` and a model duration `D > 0` it becomes
`amt * biofrac / D`; with a consulted model value `≤ 0` the section ends in the fatal
error of the source; a rate `≥ 0` is kept. A fatal error of the section is the result of
the record step, of the record loop and of the loop across subjects: no state is
returned. -/
theorem C3_infusion_resolution (o : Options) (X : Externals) (prob : odeproblem)
    (maxtime : ℚ) (j : Nat) (r : datarecord) (stack : List datarecord)
    (hev : X.is_event r = true) (hfd : r.from_data = true)
    (hF : 0 ≤ prob.fbio (|r.Cmt| - 1)) :
    (r.Rate = -1 → 0 < prob.rate (r.Cmt - 1) →
      resolveDose prob r
        = .ok ((r.set_fn (prob.fbio (|r.Cmt| - 1))).set_rate
            (prob.rate (r.Cmt - 1))) ∧
      ∃ rs, doseScheduler o X prob maxtime j r stack = .ok rs ∧
        rs.1.Rate = prob.rate (r.Cmt - 1)) ∧
    (r.Rate = -2 → 0 < prob.dur (r.Cmt - 1) →
      resolveDose prob r
        = .ok ((r.set_fn (prob.fbio (|r.Cmt| - 1))).set_rate
            (r.Amt * prob.fbio (|r.Cmt| - 1) / prob.dur (r.Cmt - 1))) ∧
      ∃ rs, doseScheduler o X prob maxtime j r stack = .ok rs ∧
        rs.1.Rate = r.Amt * prob.fbio (|r.Cmt| - 1) / prob.dur (r.Cmt - 1)) ∧
    (r.Rate = -1 → prob.rate (r.Cmt - 1) ≤ 0 →
      doseScheduler o X prob maxtime j r stack
        = .error "Invalid infusion setting: rate (R_CMT).") ∧
    (r.Rate = -2 → prob.dur (r.Cmt - 1) ≤ 0 →
      doseScheduler o X prob maxtime j r stack
        = .error "Invalid infusion setting: duration (D_CMT).") ∧
    (0 ≤ r.Rate →
      ∃ rs, doseScheduler o X prob maxtime j r stack = .ok rs ∧ rs.1.Rate = r.Rate) ∧
    (∀ (id : ℚ) (s : SimState) (r0 : datarecord) (e : String),
      s.crow ≠ o.NN → s.stack[j]? = some r0 →
      (if j ≠ 0 then s.prob.newind 2 else s.prob).systemoff = false →
      doseScheduler o X
        (preSchedule o X (if j ≠ 0 then s.prob.newind 2 else s.prob) (r0.set_id id)
          s.crow s.tfrom).1 maxtime j (r0.set_id id) (s.stack.set j (r0.set_id id))
        = .error e →
      recordStep o X id maxtime j s = .error e ∧
        ∀ fuel, recordLoop o X id maxtime (fuel + 1) j s = .error e) ∧
    (∀ (fuel i : Nat) (st : List datarecord) (rest : List (List datarecord)) (g : Run)
        (e : String),
      subjectRun o X fuel i st g = .error e →
      subjects o X fuel i (st :: rest) g = .error e) := by
  have hF' : ¬ prob.fbio (|r.Cmt| - 1) < 0 := not_lt.mpr hF
  refine ⟨?_, ?_, ?_, ?_, ?_, ?_, ?_⟩
  · intro h1 hR
    have hres : resolveDose prob r
        = .ok ((r.set_fn (prob.fbio (|r.Cmt| - 1))).set_rate
            (prob.rate (r.Cmt - 1))) := by
      have hR' : ¬ prob.rate (r.Cmt - 1) ≤ 0 := not_le.mpr hR
      have hne : ¬ prob.rate (r.Cmt - 1) = -2 := by
        intro h; rw [h] at hR; norm_num at hR
      simp [resolveDose, hF', h1, hR', hne, datarecord.set_fn, datarecord.set_rate]
    refine ⟨hres, _, doseScheduler_of_resolve_ok hev hfd hres, ?_⟩
    rw [scheduleRec_rate]; rfl
  · intro h2 hD
    have hres : resolveDose prob r
        = .ok ((r.set_fn (prob.fbio (|r.Cmt| - 1))).set_rate
            (r.Amt * prob.fbio (|r.Cmt| - 1) / prob.dur (r.Cmt - 1))) := by
      have hD' : ¬ prob.dur (r.Cmt - 1) ≤ 0 := not_le.mpr hD
      simp [resolveDose, hF', h2, hD', datarecord.set_fn, datarecord.set_rate]
    refine ⟨hres, _, doseScheduler_of_resolve_ok hev hfd hres, ?_⟩
    rw [scheduleRec_rate]; rfl
  · intro h1 hR
    apply doseScheduler_of_resolve_error hev hfd
    simp [resolveDose, hF', h1, hR, datarecord.set_fn]
  · intro h2 hD
    apply doseScheduler_of_resolve_error hev hfd
    simp [resolveDose, hF', h2, hD, datarecord.set_fn]
  · intro h0
    have hres : resolveDose prob r = .ok (r.set_fn (prob.fbio (|r.Cmt| - 1))) := by
      have h0' : ¬ r.Rate < 0 := not_lt.mpr h0
      simp [resolveDose, hF', h0', datarecord.set_fn]
    refine ⟨_, doseScheduler_of_resolve_ok hev hfd hres, ?_⟩
    rw [scheduleRec_rate]; rfl
  · intro id s r0 e hne hr hoff hd
    have hstep : recordStep o X id maxtime j s = .error e := by
      rw [recordStep_on X id maxtime hne hr hoff, hd]
    refine ⟨hstep, fun fuel => ?_⟩
    have hj : j < s.stack.length := by
      rcases List.getElem?_eq_some.1 hr with ⟨hlt, -⟩
      exact hlt
    simp [recordLoop, hj, hstep]
  · intro fuel i st rest g e h
    simp [subjects, h]

/-- A dose of 100 with rate `-2` and a model duration of 4 is given the rate `100 * 1 / 4`. -/
theorem C3_infusion_resolution_witness :
    ∃ rs, doseScheduler demoOpts demoX demoProb 1 0 demoDose [demoDose, demoObs] = .ok rs ∧
      rs.1.Rate = 100 * 1 / 4 :=
  ((C3_infusion_resolution demoOpts demoX demoProb 1 0 demoDose [demoDose, demoObs]
    (by decide) (by decide) (by decide!)).2.1 (by decide!) (by decide!)).2

/-! ## System off -/

theorem enter_systemoff (j : Nat) (p : odeproblem) :
    (if j ≠ 0 then p.newind 2 else p).systemoff = p.systemoff := by
  split <;> rfl

theorem systemOffStep_prob (o : Options) (prob : odeproblem) (r : datarecord)
    (stack : List datarecord) (s : SimState) :
    (systemOffStep o prob r stack s).prob = prob ∧
      (systemOffStep o prob r stack s).stack = stack ∧
      (systemOffStep o prob r stack s).tfrom = s.tfrom := by
  unfold systemOffStep
  split
  · split <;> exact ⟨rfl, rfl, rfl⟩
  · exact ⟨rfl, rfl, rfl⟩

theorem systemOffStep_full (o : Options) (prob : odeproblem) (r : datarecord)
    (stack : List datarecord) (s : SimState) (ho : r.output = true)
    (hcf : prob.CFONSTOP = true) :
    systemOffStep o prob r stack s
      = { prob := prob, stack := stack, crow := u32 (s.crow + 1), tfrom := s.tfrom,
          ans := s.ans ++ [outRow o prob r s.crow] } := by
  simp [systemOffStep, ho, hcf]

theorem systemOffStep_marker (o : Options) (prob : odeproblem) (r : datarecord)
    (stack : List datarecord) (s : SimState) (ho : r.output = true)
    (hcf : prob.CFONSTOP = false) :
    systemOffStep o prob r stack s
      = { prob := prob, stack := stack, crow := u32 (s.crow + 1), tfrom := s.tfrom,
          ans := s.ans ++ [{ row := s.crow, cells := [(0, Cell.NA)] }] } := by
  simp [systemOffStep, ho, hcf]

theorem systemOffStep_silent (o : Options) (prob : odeproblem) (r : datarecord)
    (stack : List datarecord) (s : SimState) (ho : r.output = false) :
    systemOffStep o prob r stack s
      = { prob := prob, stack := stack, crow := s.crow, tfrom := s.tfrom, ans := s.ans } := by
  simp [systemOffStep, ho]

theorem recordLoop_off (o : Options) (X : Externals) (id maxtime : ℚ) (fuel : Nat) :
    ∀ (j : Nat) (s : SimState), s.prob.systemoff = true →
      recordLoop o X id maxtime fuel j s = .ok (offLoop o id fuel j s) := by
  induction fuel with
  | zero => intro j s _; rfl
  | succ n ih =>
    intro j s hoff
    cases hr : s.stack[j]? with
    | none =>
      have hj : ¬ j < s.stack.length := by
        intro hlt
        rw [List.getElem?_eq_getElem hlt] at hr
        cases hr
      simp [recordLoop, offLoop, hr, hj]
    | some r =>
      have hj : j < s.stack.length := (List.getElem?_eq_some.1 hr).1
      by_cases hne : s.crow = o.NN
      · simp only [recordLoop, offLoop, hr, hj, if_true, recordStep_skip X id maxtime j hne, hne]
        have := ih (j + 1) s hoff
        simpa [hne] using this
      · have hoff1 : (if j ≠ 0 then s.prob.newind 2 else s.prob).systemoff = true := by
          rw [enter_systemoff]; exact hoff
        simp only [recordLoop, offLoop, hr, hj, if_true, hne, if_false,
          recordStep_off X id maxtime hne hr hoff1]
        apply ih
        rw [(systemOffStep_prob _ _ _ _ _).1]
        exact hoff1

theorem offLoop_frame (o : Options) (id : ℚ) (fuel : Nat) :
    ∀ (j : Nat) (s : SimState),
      (offLoop o id fuel j s).prob.y = s.prob.y ∧
        (offLoop o id fuel j s).prob.capture = s.prob.capture ∧
        (offLoop o id fuel j s).prob.systemoff = s.prob.systemoff ∧
        (offLoop o id fuel j s).prob.CFONSTOP = s.prob.CFONSTOP ∧
        (offLoop o id fuel j s).prob.Param = s.prob.Param ∧
        (offLoop o id fuel j s).stack.length = s.stack.length ∧
        (offLoop o id fuel j s).tfrom = s.tfrom := by
  induction fuel with
  | zero => intro j s; exact ⟨rfl, rfl, rfl, rfl, rfl, rfl, rfl⟩
  | succ n ih =>
    intro j s
    unfold offLoop
    cases hr : s.stack[j]? with
    | none => exact ⟨rfl, rfl, rfl, rfl, rfl, rfl, rfl⟩
    | some r =>
      dsimp only
      split
      · exact ih _ _
      · obtain ⟨h1, h2, h3, h4, h5, h6, h7⟩ := ih (j + 1)
          (systemOffStep o (if j ≠ 0 then s.prob.newind 2 else s.prob) (r.set_id id)
            (s.stack.set j (r.set_id id)) s)
        obtain ⟨e1, e2, e3⟩ := systemOffStep_prob o
          (if j ≠ 0 then s.prob.newind 2 else s.prob) (r.set_id id)
          (s.stack.set j (r.set_id id)) s
        rw [h1, h2, h3, h4, h5, h6, h7, e1, e2, e3]
        refine ⟨?_, ?_, ?_, ?_, ?_, ?_, rfl⟩
        · split <;> rfl
        · split <;> rfl
        · split <;> rfl
        · split <;> rfl
        · split <;> rfl
        · simp

theorem offRow_congr (o : Options) {p1 p2 : odeproblem} (id : ℚ) (row : Nat) (r : datarecord)
    (h1 : p1.CFONSTOP = p2.CFONSTOP) (h2 : p1.capture = p2.capture) (h3 : p1.y = p2.y) :
    offRow o p1 id row r = offRow o p2 id row r := by
  unfold offRow outRow
  rw [h1, h2, h3]

theorem systemOffStep_eq_offRow (o : Options) (prob : odeproblem) (id : ℚ) (r : datarecord)
    (stack : List datarecord) (s : SimState) :
    systemOffStep o prob (r.set_id id) stack s
      = if r.output then
          { prob := prob, stack := stack, crow := u32 (s.crow + 1), tfrom := s.tfrom,
            ans := s.ans ++ [offRow o prob id s.crow r] }
        else { prob := prob, stack := stack, crow := s.crow, tfrom := s.tfrom, ans := s.ans } := by
  unfold systemOffStep offRow
  have : (r.set_id id).output = r.output := rfl
  rw [this]
  cases r.output <;> cases prob.CFONSTOP <;> rfl

theorem offLoop_rows (o : Options) (id : ℚ) (fuel : Nat) :
    ∀ (j : Nat) (s : SimState),
      s.crow + (((s.stack.drop j).take fuel).filter (fun r => r.output)).length ≤ o.NN →
      (offLoop o id fuel j s).crow
          = s.crow + (((s.stack.drop j).take fuel).filter (fun r => r.output)).length ∧
        (offLoop o id fuel j s).ans
          = s.ans ++ ((((s.stack.drop j).take fuel).filter (fun r => r.output)).enumFrom
              s.crow).map (fun p => offRow o s.prob id p.1 p.2) := by
  induction fuel with
  | zero => intro j s _; simp [offLoop]
  | succ n ih =>
    intro j s hb
    unfold offLoop
    cases hr : s.stack[j]? with
    | none =>
      have hj : s.stack.length ≤ j := by
        by_contra hlt
        rw [List.getElem?_eq_getElem (by omega)] at hr
        cases hr
      simp [List.drop_eq_nil_of_le hj]
    | some r =>
      have hj : j < s.stack.length := (List.getElem?_eq_some.1 hr).1
      have hget : s.stack[j] = r := (List.getElem?_eq_some.1 hr).2
      have hdrop : s.stack.drop j = r :: s.stack.drop (j + 1) := by
        rw [List.drop_eq_getElem_cons hj, hget]
      rw [hdrop, List.take_succ_cons] at hb ⊢
      dsimp only
      by_cases hne : s.crow = o.NN
      · rw [if_pos hne]
        have hro : r.output = false := by
          cases ho : r.output with
          | false => rfl
          | true =>
            simp only [List.filter_cons, ho, if_true, List.length_cons] at hb
            omega
        simp only [List.filter_cons, hro, Bool.false_eq_true, if_false] at hb ⊢
        exact ih (j + 1) s hb
      · rw [if_neg hne, systemOffStep_eq_offRow]
        have hdrop2 : (s.stack.set j (r.set_id id)).drop (j + 1) = s.stack.drop (j + 1) :=
          List.drop_set_of_lt _ _ (Nat.lt_succ_self j)
        have hp1 : (if j ≠ 0 then s.prob.newind 2 else s.prob).CFONSTOP = s.prob.CFONSTOP := by
          split <;> rfl
        have hp2 : (if j ≠ 0 then s.prob.newind 2 else s.prob).capture = s.prob.capture := by
          split <;> rfl
        have hp3 : (if j ≠ 0 then s.prob.newind 2 else s.prob).y = s.prob.y := by
          split <;> rfl
        have hrow : ∀ (row : Nat) (x : datarecord),
            offRow o (if j ≠ 0 then s.prob.newind 2 else s.prob) id row x
              = offRow o s.prob id row x :=
          fun row x => offRow_congr o id row x hp1 hp2 hp3
        cases ho : r.output with
        | false =>
          simp only [List.filter_cons, ho, Bool.false_eq_true, if_false] at hb ⊢
          have := ih (j + 1)
            { prob := (if j ≠ 0 then s.prob.newind 2 else s.prob),
              stack := s.stack.set j (r.set_id id), crow := s.crow, tfrom := s.tfrom,
              ans := s.ans } (by simpa [hdrop2] using hb)
          simp only [hdrop2, hrow] at this
          exact this
        | true =>
          simp only [List.filter_cons, ho, if_true, List.length_cons] at hb ⊢
          have hu : u32 (s.crow + 1) = s.crow + 1 :=
            u32_of_lt (lt_of_le_of_lt (by omega) (NN_lt o))
          rw [hu]
          have := ih (j + 1)
            { prob := (if j ≠ 0 then s.prob.newind 2 else s.prob),
              stack := s.stack.set j (r.set_id id), crow := s.crow + 1, tfrom := s.tfrom,
              ans := s.ans ++ [offRow o (if j ≠ 0 then s.prob.newind 2 else s.prob) id
                s.crow r] } (by simp only [hdrop2]; omega)
          simp only [hdrop2, hrow] at this
          obtain ⟨t1, t2⟩ := this
          simp only [hrow]
          refine ⟨by rw [t1]; omega, ?_⟩
          rw [t2]
          simp [List.enumFrom_cons]

/-- C6. Shutoff. When the model handle reports system-off at a record reached with
`crow < NN`, the record step is the system-off body alone: the model handle is left as it
is but for the `newind` indicator (compartments, captured values and the flags are
unchanged), the stack is left as it is but for the identifier of the record, and the
result is the same for all external collaborators (none is invoked). An output record
takes exactly the row `crow`: the full row of identifier, time and the current captured
and requested values when `CFONSTOP` holds, the missing-value marker in column 0 and no
other assignment otherwise; a non-output record takes no row. The same holds for every
later record of the subject: the record loop is the system-off loop, and while the row
budget `NN` lasts the output records among the next `fuel` records take the rows
`crow, crow + 1, ...`, one each, filled as said. -/
theorem C6_system_off (o : Options) (X : Externals) (id maxtime : ℚ) :
    (∀ (j : Nat) (s : SimState) (r : datarecord),
      s.crow < o.NN → s.stack[j]? = some r → s.prob.systemoff = true →
      ∃ s1, recordStep o X id maxtime j s = .ok s1 ∧
        s1.prob = (if j ≠ 0 then s.prob.newind 2 else s.prob) ∧
        s1.prob.y = s.prob.y ∧ s1.prob.capture = s.prob.capture ∧
        s1.prob.systemoff = true ∧
        s1.stack = s.stack.set j (r.set_id id) ∧ s1.tfrom = s.tfrom ∧
        (r.output = true → s.prob.CFONSTOP = true →
          s1.crow = s.crow + 1 ∧
          s1.ans = s.ans ++ [{ row := s.crow, cells :=
            [(0, Cell.num id), (1, Cell.num r.Time)]
              ++ (List.range o.n_capture).map (fun k =>
                  (u32 (k + o.capture_start),
                    Cell.num (s.prob.capture (o.capture.getD (k + 1) 0))))
              ++ (List.range o.nreq).map (fun k =>
                  (u32 (k + o.req_start), Cell.num (s.prob.y (o.request.getD k 0)))) }]) ∧
        (r.output = true → s.prob.CFONSTOP = false →
          s1.crow = s.crow + 1 ∧
          s1.ans = s.ans ++ [{ row := s.crow, cells := [(0, Cell.NA)] }]) ∧
        (r.output = false → s1.crow = s.crow ∧ s1.ans = s.ans)) ∧
    (∀ (X1 : Externals) (fuel j : Nat) (s : SimState), s.prob.systemoff = true →
      recordLoop o X id maxtime fuel j s = .ok (offLoop o id fuel j s) ∧
      recordLoop o X1 id maxtime fuel j s = recordLoop o X id maxtime fuel j s ∧
      (offLoop o id fuel j s).prob.y = s.prob.y ∧
      (offLoop o id fuel j s).prob.capture = s.prob.capture ∧
      (offLoop o id fuel j s).prob.systemoff = true ∧
      (offLoop o id fuel j s).stack.length = s.stack.length ∧
      (s.crow + (((s.stack.drop j).take fuel).filter (fun r => r.output)).length ≤ o.NN →
        (offLoop o id fuel j s).crow
          = s.crow + (((s.stack.drop j).take fuel).filter (fun r => r.output)).length ∧
        (offLoop o id fuel j s).ans
          = s.ans ++ ((((s.stack.drop j).take fuel).filter (fun r => r.output)).enumFrom
              s.crow).map (fun p => offRow o s.prob id p.1 p.2))) := by
  constructor
  · intro j s r hlt hr hoff
    have hne : s.crow ≠ o.NN := Nat.ne_of_lt hlt
    have hoff1 : (if j ≠ 0 then s.prob.newind 2 else s.prob).systemoff = true := by
      rw [enter_systemoff]; exact hoff
    have hu : u32 (s.crow + 1) = s.crow + 1 := u32_of_lt (lt_of_le_of_lt hlt (NN_lt o))
    have hy : (if j ≠ 0 then s.prob.newind 2 else s.prob).y = s.prob.y := by split <;> rfl
    have hc : (if j ≠ 0 then s.prob.newind 2 else s.prob).capture = s.prob.capture := by
      split <;> rfl
    have hcf : (if j ≠ 0 then s.prob.newind 2 else s.prob).CFONSTOP = s.prob.CFONSTOP := by
      split <;> rfl
    obtain ⟨e1, e2, e3⟩ := systemOffStep_prob o
      (if j ≠ 0 then s.prob.newind 2 else s.prob) (r.set_id id)
      (s.stack.set j (r.set_id id)) s
    refine ⟨_, recordStep_off X id maxtime hne hr hoff1, e1, ?_, ?_, ?_, e2, e3, ?_, ?_, ?_⟩
    · rw [e1, hy]
    · rw [e1, hc]
    · rw [e1, hoff1]
    · intro ho hcfon
      rw [systemOffStep_full o _ (r.set_id id) _ s ho (hcf.trans hcfon), hu]
      refine ⟨rfl, ?_⟩
      show s.ans ++ [outRow o _ (r.set_id id) s.crow] = _
      unfold outRow
      rw [hy, hc]
      rfl
    · intro ho hcfon
      rw [systemOffStep_marker o _ (r.set_id id) _ s ho (hcf.trans hcfon), hu]
      exact ⟨rfl, rfl⟩
    · intro ho
      rw [systemOffStep_silent o _ (r.set_id id) _ s ho]
      exact ⟨rfl, rfl⟩
  · intro X1 fuel j s hoff
    obtain ⟨h1, h2, h3, -, -, h6, -⟩ := offLoop_frame o id fuel j s
    refine ⟨recordLoop_off o X id maxtime fuel j s hoff, ?_, h1, h2, ?_, h6,
      offLoop_rows o id fuel j s⟩
    · rw [recordLoop_off o X id maxtime fuel j s hoff,
        recordLoop_off o X1 id maxtime fuel j s hoff]
    · rw [h3]; exact hoff

/-- An observation met while the system is off takes row 0 and leaves the system off. -/
theorem C6_system_off_witness :
    ∃ s1, recordStep demoOpts demoX 1 1 0
        { prob := { demoProb with systemoff := true }, stack := [demoObs], crow := 0,
          tfrom := 0, ans := [] } = .ok s1 ∧ s1.crow = 1 ∧ s1.prob.systemoff = true := by
  obtain ⟨s1, h1, -, -, -, h5, -, -, h8, -, -⟩ :=
    (C6_system_off demoOpts demoX 1 1).1 0
      { prob := { demoProb with systemoff := true }, stack := [demoObs], crow := 0,
        tfrom := 0, ans := [] } demoObs (by decide) rfl rfl
  exact ⟨s1, h1, (h8 rfl rfl).1, h5⟩

/-! ## Lag times: the phantom record and the disarmed dose -/

theorem resolveDose_fields {prob : odeproblem} {r r1 : datarecord}
    (h : resolveDose prob r = .ok r1) :
    r1 = { r with Fn := prob.fbio (|r.Cmt| - 1), Rate := r1.Rate } := by
  unfold resolveDose at h
  dsimp only at h
  split at h
  · cases h
  · split at h
    · split at h
      · cases h
      · rename_i r2 h2
        have hr2 : r2 = { r with Fn := prob.fbio (|r.Cmt| - 1), Rate := r2.Rate } := by
          split at h2
          · split at h2
            · cases h2
            · cases h2; rfl
          · cases h2; rfl
        split at h
        · split at h
          · cases h
          · cases h
            rw [hr2]; rfl
        · cases h
          exact hr2
    · cases h; rfl

theorem postSchedule_silent (o : Options) (X : Externals) (prob : odeproblem) (tto : ℚ)
    (r : datarecord) (stack : List datarecord) (s : SimState) (ho : r.output = false) :
    (postSchedule o X prob tto r stack s).crow = s.crow ∧
      (postSchedule o X prob tto r stack s).ans = s.ans := by
  simp [postSchedule, ho]

theorem scheduleRec_lag (o : Options) (X : Externals) (prob : odeproblem) (maxtime : ℚ)
    (j : Nat) (r : datarecord) (stack : List datarecord) (hlag : prob.alag r.Cmt > o.mindt) :
    scheduleRec o X prob maxtime j r stack
      = (r.unarm,
          ((insertPhantom prob r j stack)
              ++ X.schedule (newev prob r) (insertPhantom prob r j stack) maxtime
                  o.addl_ev_first).take j
            ++ std_sort (((insertPhantom prob r j stack)
              ++ X.schedule (newev prob r) (insertPhantom prob r j stack) maxtime
                  o.addl_ev_first).drop j)) := by
  unfold scheduleRec
  rw [if_pos hlag]

/-- C5. A dose record disarmed for a lag time takes no output row. For a dataset-sourced
dose record at index `j`, reached with the system on, whose resolution succeeds and whose
lag time exceeds `mindt`: the record step succeeds, the record `this_rec` points to
afterwards is the disarmed record, which is not output-eligible, and the step leaves the
row counter and the assignments to the result matrix as they were. -/
theorem C5_disarmed_no_row (o : Options) (X : Externals) (id maxtime : ℚ) (j : Nat)
    (s : SimState) (r r1 : datarecord)
    (hne : s.crow ≠ o.NN) (hr : s.stack[j]? = some r)
    (hoff : s.prob.systemoff = false)
    (hev : X.is_event (r.set_id id) = true) (hfd : r.from_data = true)
    (hres : resolveDose
      (preSchedule o X (if j ≠ 0 then s.prob.newind 2 else s.prob) (r.set_id id)
        s.crow s.tfrom).1 (r.set_id id) = .ok r1)
    (hlag : (preSchedule o X (if j ≠ 0 then s.prob.newind 2 else s.prob) (r.set_id id)
        s.crow s.tfrom).1.alag r1.Cmt > o.mindt) :
    ∃ s1 rs, recordStep o X id maxtime j s = .ok s1 ∧
      doseScheduler o X
        (preSchedule o X (if j ≠ 0 then s.prob.newind 2 else s.prob) (r.set_id id)
          s.crow s.tfrom).1 maxtime j (r.set_id id) (s.stack.set j (r.set_id id)) = .ok rs ∧
      rs.1 = r1.unarm ∧ rs.1.Armed = false ∧ rs.1.output = false ∧
      s1.crow = s.crow ∧ s1.ans = s.ans := by
  have hoff1 : (if j ≠ 0 then s.prob.newind 2 else s.prob).systemoff = false := by
    rw [enter_systemoff]; exact hoff
  have hfd1 : (r.set_id id).from_data = true := hfd
  have hd := @doseScheduler_of_resolve_ok o X _ maxtime j _ _
    (s.stack.set j (r.set_id id)) hev hfd1 hres
  have hfst : (scheduleRec o X
      (preSchedule o X (if j ≠ 0 then s.prob.newind 2 else s.prob) (r.set_id id)
        s.crow s.tfrom).1 maxtime j r1 (s.stack.set j (r.set_id id))).1 = r1.unarm := by
    rw [scheduleRec_lag o X _ maxtime j r1 _ hlag]
  have hstep := recordStep_on X id maxtime hne hr hoff1
  rw [hd] at hstep
  obtain ⟨hc, ha⟩ := postSchedule_silent o X
    (preSchedule o X (if j ≠ 0 then s.prob.newind 2 else s.prob) (r.set_id id)
      s.crow s.tfrom).1
    (preSchedule o X (if j ≠ 0 then s.prob.newind 2 else s.prob) (r.set_id id)
      s.crow s.tfrom).2
    (scheduleRec o X
      (preSchedule o X (if j ≠ 0 then s.prob.newind 2 else s.prob) (r.set_id id)
        s.crow s.tfrom).1 maxtime j r1 (s.stack.set j (r.set_id id))).1
    (scheduleRec o X
      (preSchedule o X (if j ≠ 0 then s.prob.newind 2 else s.prob) (r.set_id id)
        s.crow s.tfrom).1 maxtime j r1 (s.stack.set j (r.set_id id))).2 s
    (by rw [hfst]; rfl)
  exact ⟨_, _, hstep, hd, hfst, by rw [hfst]; rfl, by rw [hfst]; rfl, hc, ha⟩

/-- A dataset dose with a lag time of 2: the record ends the step disarmed, with no row. -/
theorem C5_disarmed_no_row_witness :
    ∃ s1 rs, recordStep demoOpts demoX 1 1 0
        { prob := { demoProb with alag := fun _ => 2 }, stack := [demoDose, demoObs],
          crow := 0, tfrom := 0, ans := [] } = .ok s1 ∧
      doseScheduler demoOpts demoX
        (preSchedule demoOpts demoX
          (if 0 ≠ 0 then ({ demoProb with alag := fun _ => 2 } : odeproblem).newind 2
            else { demoProb with alag := fun _ => 2 }) (demoDose.set_id 1) 0 0).1 1 0
        (demoDose.set_id 1) ([demoDose, demoObs].set 0 (demoDose.set_id 1)) = .ok rs ∧
      rs.1 = ((demoDose.set_fn 1).set_rate 25).unarm ∧ rs.1.Armed = false ∧
      rs.1.output = false ∧ s1.crow = 0 ∧ s1.ans = [] :=
  C5_disarmed_no_row demoOpts demoX 1 1 0
    { prob := { demoProb with alag := fun _ => 2 }, stack := [demoDose, demoObs],
      crow := 0, tfrom := 0, ans := [] } demoDose ((demoDose.set_fn 1).set_rate 25)
    (by decide) rfl rfl (by decide) (by decide)
    (by norm_num [resolveDose, preSchedule, demoX, demoProb, demoDose, demoOpts,
      datarecord.set_id, datarecord.set_fn, datarecord.set_rate, odeproblem.set_evid,
      odeproblem.set_eps, collapse, dt, datarecord.from_data])
    (by norm_num [preSchedule, demoX, demoProb, demoDose, demoOpts,
      datarecord.set_id, datarecord.set_fn, datarecord.set_rate, odeproblem.set_evid,
      odeproblem.set_eps, collapse, dt, datarecord.from_data])

theorem take_succ_append_cons {α : Type} (P D : List α) (x : α) (j : Nat) (h : P.length = j) :
    (P ++ x :: D).take (j + 1) = P ++ [x] ∧ (P ++ x :: D).drop (j + 1) = D ∧
      (P ++ x :: D).take j = P ∧ (P ++ x :: D).drop j = x :: D := by
  subst h
  refine ⟨?_, ?_, List.take_left _ _, List.drop_left _ _⟩
  · have : P ++ x :: D = (P ++ [x]) ++ D := by simp
    rw [this]
    exact List.take_left' (by simp)
  · have : P ++ x :: D = (P ++ [x]) ++ D := by simp
    rw [this]
    exact List.drop_left' (by simp)

theorem insertPhantom_shape (prob : odeproblem) (r : datarecord) (j : Nat)
    (stack : List datarecord) (hj : j < stack.length) :
    insertPhantom prob r j stack
      = stack.take j ++ r.unarm :: newev prob r :: stack.drop (j + 1) := by
  unfold insertPhantom
  dsimp only
  have hl : (stack.take j).length = j := by simp; omega
  rw [List.set_eq_take_cons_drop _ hj]
  obtain ⟨h1, h2, -, -⟩ := take_succ_append_cons (stack.take j) (stack.drop (j + 1)) r.unarm j hl
  rw [h1, h2]
  simp

/-- C4. Lag time and the phantom record (lines 480-504). For a dataset-sourced dose
record at index `j` whose resolution gives `r1`: when the lag time of its compartment
exceeds `mindt`, the record is disarmed and exactly one record `newev` is inserted, at
index `j + 1`, before the scheduler runs (the entries before `j` and after the insertion
are those of the stack); `newev` is the copy of the resolved record with time
`time + lag`, position `-1200`, the phantom flag set, the resolved bioavailability and
rate, it is not dataset-sourced and has no output; the final stack consists of the old entries (with
the record at `j` disarmed), `newev`, and the records pushed by the scheduler. A record
that is not dataset-sourced, such as `newev`, passes the dose scheduler section with the
stack unchanged: no further phantom. When the lag time does not exceed `mindt`, the
record keeps its `armed` flag and the final stack consists of the old entries and the
records pushed by the scheduler. -/
theorem C4_lag_phantom (o : Options) (X : Externals) (prob : odeproblem) (maxtime : ℚ)
    (j : Nat) (r r1 : datarecord) (stack : List datarecord)
    (hev : X.is_event r = true) (hfd : r.from_data = true)
    (hres : resolveDose prob r = .ok r1) (hj : j < stack.length) :
    (prob.alag r.Cmt > o.mindt →
      (∃ st, doseScheduler o X prob maxtime j r stack = .ok (r1.unarm, st) ∧
        st.Perm (stack.set j r1.unarm ++ newev prob r1
          :: X.schedule (newev prob r1) (insertPhantom prob r1 j stack) maxtime
              o.addl_ev_first)) ∧
      r1.unarm.Armed = false ∧
      (insertPhantom prob r1 j stack).length = stack.length + 1 ∧
      (insertPhantom prob r1 j stack)[j]? = some r1.unarm ∧
      (insertPhantom prob r1 j stack)[j + 1]? = some (newev prob r1) ∧
      (insertPhantom prob r1 j stack).take j = stack.take j ∧
      (insertPhantom prob r1 j stack).drop (j + 2) = stack.drop (j + 1) ∧
      newev prob r1
        = { r with Time := r.Time + prob.alag r.Cmt, Pos := -1200, Phantom := true,
                   Fromdata := false, Output := false, Fn := prob.fbio (|r.Cmt| - 1),
                   Rate := r1.Rate }) ∧
    (¬ prob.alag r.Cmt > o.mindt →
      ∃ st, doseScheduler o X prob maxtime j r stack = .ok (r1, st) ∧
        r1.Armed = r.Armed ∧
        st.Perm (stack.set j r1 ++ X.schedule r1 (stack.set j r1) maxtime o.addl_ev_first)) ∧
    (∀ (prob2 : odeproblem) (maxtime2 : ℚ) (j2 : Nat) (this_rec : datarecord)
        (stack2 : List datarecord), this_rec.from_data = false →
      doseScheduler o X prob2 maxtime2 j2 this_rec stack2 = .ok (this_rec, stack2)) ∧
    (∀ id : ℚ, ((newev prob r1).set_id id).from_data = false) := by
  have hf := resolveDose_fields hres
  have hcmt : r1.Cmt = r.Cmt := by rw [hf]
  have hd := @doseScheduler_of_resolve_ok o X _ maxtime j _ _ stack hev hfd hres
  have hshape := insertPhantom_shape prob r1 j stack hj
  have hl : (stack.take j).length = j := by simp; omega
  refine ⟨?_, ?_, ?_, ?_⟩
  · intro hlag
    have hlag1 : prob.alag r1.Cmt > o.mindt := by rw [hcmt]; exact hlag
    have hds := hd
    rw [scheduleRec_lag o X prob maxtime j r1 stack hlag1] at hds
    refine ⟨⟨_, hds, ?_⟩, rfl, ?_, ?_, ?_, ?_, ?_, ?_⟩
    · have hp : (std_sort (((insertPhantom prob r1 j stack)
          ++ X.schedule (newev prob r1) (insertPhantom prob r1 j stack) maxtime
              o.addl_ev_first).drop j)).Perm
          (((insertPhantom prob r1 j stack)
          ++ X.schedule (newev prob r1) (insertPhantom prob r1 j stack) maxtime
              o.addl_ev_first).drop j) := List.perm_insertionSort _ _
      refine ((List.Perm.append_left _ hp).trans ?_)
      rw [List.take_append_drop]
      refine List.Perm.trans ?_ List.perm_middle.symm
      rw [← List.cons_append]
      refine List.Perm.append_right _ ?_
      rw [hshape, List.set_eq_take_cons_drop _ hj]
      have e : stack.take j ++ r1.unarm :: newev prob r1 :: stack.drop (j + 1)
          = (stack.take j ++ [r1.unarm]) ++ newev prob r1 :: stack.drop (j + 1) := by simp
      rw [e]
      refine List.perm_middle.trans ?_
      simp
    · rw [hshape]; simp; omega
    · rw [hshape, List.getElem?_append_right (by omega)]
      simp [hl]
    · rw [hshape, List.getElem?_append_right (by omega)]
      simp [hl]
    · rw [hshape]; exact List.take_left' hl
    · rw [hshape]
      have : stack.take j ++ r1.unarm :: newev prob r1 :: stack.drop (j + 1)
          = (stack.take j ++ [r1.unarm, newev prob r1]) ++ stack.drop (j + 1) := by simp
      rw [this]
      exact List.drop_left' (by simp; omega)
    · rw [hf]
      rfl
  · intro hlag
    have hlag1 : ¬ prob.alag r1.Cmt > o.mindt := by rw [hcmt]; exact hlag
    have harm : r1.Armed = r.Armed := by rw [hf]
    have hs : scheduleRec o X prob maxtime j r1 stack
        = if needs_sorting j (stack.set j r1 ++ X.schedule r1 (stack.set j r1) maxtime
              o.addl_ev_first) = true
          then (r1, (stack.set j r1 ++ X.schedule r1 (stack.set j r1) maxtime
              o.addl_ev_first).take (j + 1)
            ++ std_sort ((stack.set j r1 ++ X.schedule r1 (stack.set j r1) maxtime
              o.addl_ev_first).drop (j + 1)))
          else (r1, stack.set j r1 ++ X.schedule r1 (stack.set j r1) maxtime
              o.addl_ev_first) := by
      unfold scheduleRec
      rw [if_neg hlag1]
    rw [hd, hs]
    split
    · refine ⟨_, rfl, harm, ?_⟩
      refine (List.Perm.append_left _ (List.perm_insertionSort _ _)).trans ?_
      rw [List.take_append_drop]
    · exact ⟨_, rfl, harm, List.Perm.refl _⟩
  · intro prob2 maxtime2 j2 this_rec stack2 h
    simp [doseScheduler, h]
  · intro id
    rfl

/-- A dataset dose at time 0 with a lag time of 2: the phantom stands at index 1, at time 2. -/
theorem C4_lag_phantom_witness :
    (insertPhantom demoLagProb ((demoDose.set_fn 1).set_rate 25) 0 [demoDose, demoObs])[0 + 1]?
        = some (newev demoLagProb ((demoDose.set_fn 1).set_rate 25)) ∧
      newev demoLagProb ((demoDose.set_fn 1).set_rate 25)
        = { demoDose with
            Time := 2, Pos := -1200, Phantom := true, Fromdata := false, Output := false,
            Fn := 1, Rate := 25 } := by
  have h := (C4_lag_phantom demoOpts demoX demoLagProb 1 0 demoDose
    ((demoDose.set_fn 1).set_rate 25) [demoDose, demoObs] (by decide) (by decide)
    (by norm_num [resolveDose, demoLagProb, demoProb, demoDose, datarecord.set_fn,
      datarecord.set_rate])
    (by decide)).1 (by norm_num [demoLagProb, demoOpts])
  refine ⟨h.2.2.2.2.1, h.2.2.2.2.2.2.2.trans ?_⟩
  norm_num [demoDose, demoLagProb, demoProb, datarecord.set_fn, datarecord.set_rate]

/-! ## The order of the record stack -/

theorem recLE_iff (a b : datarecord) :
    RecLE a b ↔ a.Time < b.Time ∨ (a.Time = b.Time ∧ a.Pos ≤ b.Pos) := by
  unfold RecLE CompRec
  by_cases h : b.Time = a.Time
  · simp [h]
  · simp only [h, if_false, decide_eq_false_iff_not, not_lt]
    constructor
    · intro hle
      exact Or.inl (lt_of_le_of_ne hle (Ne.symm h))
    · rintro (hlt | ⟨he, -⟩)
      · exact le_of_lt hlt
      · exact absurd he.symm h

theorem compRec_iff (a b : datarecord) :
    CompRec a b = true ↔ a.Time < b.Time ∨ (a.Time = b.Time ∧ a.Pos < b.Pos) := by
  unfold CompRec
  by_cases h : a.Time = b.Time
  · simp [h]
  · simp only [h, if_false, decide_eq_true_eq, false_and, or_false]

theorem RecLE.time_le {a b : datarecord} (h : RecLE a b) : a.Time ≤ b.Time := by
  rcases (recLE_iff a b).1 h with h | ⟨h, -⟩
  · exact le_of_lt h
  · exact le_of_eq h

theorem recLE_of_compRec {a b : datarecord} (h : CompRec a b = true) : RecLE a b := by
  rw [recLE_iff]
  rcases (compRec_iff a b).1 h with h | ⟨h1, h2⟩
  · exact Or.inl h
  · exact Or.inr ⟨h1, le_of_lt h2⟩

theorem recLE_total : IsTotal datarecord RecLE where
  total a b := by
    rw [recLE_iff, recLE_iff]
    rcases lt_trichotomy a.Time b.Time with h | h | h
    · exact Or.inl (Or.inl h)
    · rcases le_total a.Pos b.Pos with hp | hp
      · exact Or.inl (Or.inr ⟨h, hp⟩)
      · exact Or.inr (Or.inr ⟨h.symm, hp⟩)
    · exact Or.inr (Or.inl h)

theorem recLE_trans : IsTrans datarecord RecLE where
  trans a b c := by
    rw [recLE_iff, recLE_iff, recLE_iff]
    rintro (h1 | ⟨h1, p1⟩) (h2 | ⟨h2, p2⟩)
    · exact Or.inl (lt_trans h1 h2)
    · exact Or.inl (h2 ▸ h1)
    · exact Or.inl (h1 ▸ h2)
    · exact Or.inr ⟨h1.trans h2, le_trans p1 p2⟩

theorem std_sort_sorted (l : List datarecord) : (std_sort l).Pairwise RecLE :=
  @List.sorted_insertionSort _ RecLE _ recLE_total recLE_trans l

theorem std_sort_perm (l : List datarecord) : (std_sort l).Perm l :=
  List.perm_insertionSort RecLE l

theorem timeOrdered_of_sorted {l : List datarecord} (h : l.Pairwise RecLE) : TimeOrdered l :=
  List.Pairwise.imp (fun hab => RecLE.time_le hab) h

theorem timeOrdered_glue {P S : List datarecord} {x : datarecord} (hP : TimeOrdered P)
    (hPx : ∀ a ∈ P, a.Time ≤ x.Time) (hS : TimeOrdered S) (hxS : ∀ b ∈ S, x.Time ≤ b.Time) :
    TimeOrdered (P ++ x :: S) := by
  unfold TimeOrdered at *
  rw [List.pairwise_append]
  refine ⟨hP, List.pairwise_cons.2 ⟨hxS, hS⟩, ?_⟩
  intro a ha b hb
  rcases List.mem_cons.1 hb with rfl | hb
  · exact hPx a ha
  · exact le_trans (hPx a ha) (hxS b hb)

theorem timeOrdered_split {stack : List datarecord} {j : Nat} {r : datarecord}
    (hord : TimeOrdered stack) (hr : stack[j]? = some r) :
    TimeOrdered (stack.take j) ∧ (∀ a ∈ stack.take j, a.Time ≤ r.Time) ∧
      ∀ b ∈ stack.drop (j + 1), r.Time ≤ b.Time := by
  have hj : j < stack.length := (List.getElem?_eq_some.1 hr).1
  have hget : stack[j] = r := (List.getElem?_eq_some.1 hr).2
  have hdec : stack = stack.take j ++ r :: stack.drop (j + 1) := by
    conv_lhs => rw [← List.take_append_drop j stack]
    rw [List.drop_eq_getElem_cons hj, hget]
  unfold TimeOrdered at *
  rw [hdec, List.pairwise_append, List.pairwise_cons] at hord
  obtain ⟨h1, ⟨h2, -⟩, h3⟩ := hord
  refine ⟨h1, fun a ha => h3 a ha r (List.mem_cons_self _ _), h2⟩

theorem assembleStack_sorted {g : Grid} {tgridi : List Int} {np : Int} {get_uid : Nat → ℚ}
    {get_idata_row : ℚ → Int} {idx : Nat} {stack : List datarecord}
    {res : List datarecord × Nat}
    (h : assembleStack g tgridi np get_uid get_idata_row idx stack = .ok res) :
    ∃ z : List datarecord, (∀ e ∈ z, e.Pos = np ∧ e.Fromdata = false ∧ e.Evid = 0) ∧
      res.1 = std_sort (stack ++ z) := by
  unfold assembleStack at h
  dsimp only at h
  split at h
  · cases h
  · split at h
    · rename_i n z hn hz
      split at h
      · cases h
        refine ⟨z.take n ++ g.ptimes.map (fun t => datarecord.obs t np false), ?_, by simp⟩
        intro e he
        rcases List.mem_append.1 he with he | he
        · have hez : e ∈ z := List.mem_of_mem_take he
          have hzd : z ∈ designs g np := by
            unfold atInt at hz
            split at hz
            · exact List.getElem?_mem hz
            · cases hz
          unfold designs at hzd
          simp only [List.mem_map, List.mem_range] at hzd
          obtain ⟨i, -, rfl⟩ := hzd
          simp only [List.mem_map, List.mem_range] at hez
          obtain ⟨k, -, rfl⟩ := hez
          exact ⟨rfl, rfl, rfl⟩
        · simp only [List.mem_map] at he
          obtain ⟨t, -, rfl⟩ := he
          exact ⟨rfl, rfl, rfl⟩
      · cases h
    · cases h

theorem assembleLoop_mem {g : Grid} {tgridi : List Int} {np : Int} {get_uid : Nat → ℚ}
    {get_idata_row : ℚ → Int} :
    ∀ (a : List (List datarecord)) (idx obscount : Nat)
      (res : List (List datarecord) × Nat),
      assembleLoop g tgridi np get_uid get_idata_row idx a obscount = .ok res →
      List.Forall₂ (fun stack st => ∃ z : List datarecord,
        (∀ e ∈ z, e.Pos = np ∧ e.Fromdata = false ∧ e.Evid = 0) ∧ st = std_sort (stack ++ z))
        a res.1 := by
  intro a
  induction a with
  | nil =>
    intro idx obscount res h
    simp [assembleLoop] at h
    cases h
    exact List.Forall₂.nil
  | cons stack rest ih =>
    intro idx obscount res h
    unfold assembleLoop at h
    split at h
    · cases h
    · rename_i sn hsn
      split at h
      · cases h
      · rename_i ro hro
        cases h
        exact List.Forall₂.cons (assembleStack_sorted hsn) (ih _ _ _ hro)

theorem scheduleRec_nolag (o : Options) (X : Externals) (prob : odeproblem) (maxtime : ℚ)
    (j : Nat) (r : datarecord) (stack : List datarecord) (hlag : ¬ prob.alag r.Cmt > o.mindt) :
    scheduleRec o X prob maxtime j r stack
      = if needs_sorting j (stack.set j r ++ X.schedule r (stack.set j r) maxtime
            o.addl_ev_first) = true
        then (r, (stack.set j r ++ X.schedule r (stack.set j r) maxtime
            o.addl_ev_first).take (j + 1)
          ++ std_sort ((stack.set j r ++ X.schedule r (stack.set j r) maxtime
            o.addl_ev_first).drop (j + 1)))
        else (r, stack.set j r ++ X.schedule r (stack.set j r) maxtime
            o.addl_ev_first) := by
  unfold scheduleRec
  rw [if_neg hlag]

theorem gridSection_sorted {g : Grid} {put_ev_first obsaug : Bool} {data_nrow : Int}
    {get_uid : Nat → ℚ} {get_idata_row : ℚ → Int} {a : List (List datarecord)}
    {obscount : Nat} {res : List (List datarecord) × Nat}
    (hrun : obscount = 0 ∨ obsaug = true)
    (h : gridSection g put_ev_first obsaug data_nrow get_uid get_idata_row a obscount
      = .ok res) :
    List.Forall₂ (fun stack st => ∃ z : List datarecord,
        (∀ e ∈ z, e.Pos = nextpos put_ev_first data_nrow ∧ e.Fromdata = false ∧ e.Evid = 0) ∧
        st = std_sort (stack ++ z)) a res.1 := by
  unfold gridSection at h
  rw [if_pos hrun] at h
  split at h
  · cases h
  · exact assembleLoop_mem a 0 obscount res h

theorem timeOrdered_append {P S : List datarecord} (hP : TimeOrdered P) (hS : TimeOrdered S)
    (hPS : ∀ a ∈ P, ∀ b ∈ S, a.Time ≤ b.Time) : TimeOrdered (P ++ S) := by
  unfold TimeOrdered at *
  rw [List.pairwise_append]
  exact ⟨hP, hS, hPS⟩

theorem sorted_head_time {u : datarecord} {L : List datarecord} {t : ℚ}
    (hu : u.Time = t) (hL : ∀ e ∈ L, t ≤ e.Time) :
    ∃ x rest, std_sort (u :: L) = x :: rest ∧ x.Time = t := by
  have hperm := std_sort_perm (u :: L)
  have hsorted := std_sort_sorted (u :: L)
  cases hs : std_sort (u :: L) with
  | nil =>
    rw [hs] at hperm
    exact absurd (List.nil_perm.1 hperm) (List.cons_ne_nil _ _)
  | cons x rest =>
    refine ⟨x, rest, rfl, ?_⟩
    rw [hs] at hperm hsorted
    have hx : x ∈ u :: L := hperm.mem_iff.1 (List.mem_cons_self _ _)
    have hge : t ≤ x.Time := by
      rcases List.mem_cons.1 hx with rfl | hx
      · exact le_of_eq hu.symm
      · exact hL x hx
    have hle : x.Time ≤ t := by
      have hmem : u ∈ x :: rest := hperm.mem_iff.2 (List.mem_cons_self _ _)
      rcases List.mem_cons.1 hmem with rfl | hmem
      · exact le_of_eq hu
      · rw [← hu]
        exact RecLE.time_le ((List.pairwise_cons.1 hsorted).1 u hmem)
    exact le_antisymm hle hge

theorem i32_of_fits {z : Int} (h0 : -(2 ^ 31) ≤ z) (h1 : z < 2 ^ 31) : i32 z = z := by
  unfold i32
  rw [Int.emod_eq_of_lt (by omega) (by omega)]
  omega

theorem sorted_index_lt {st : List datarecord} (hs : st.Pairwise RecLE) {i k : Nat}
    {x y : datarecord} (hx : st[i]? = some x) (hy : st[k]? = some y)
    (hc : CompRec x y = true) : i < k := by
  by_contra hik
  have hxi := List.getElem?_eq_some.1 hx
  have hyk := List.getElem?_eq_some.1 hy
  obtain ⟨hi, hxe⟩ := hxi
  obtain ⟨hk, hye⟩ := hyk
  rcases Nat.lt_or_ge k i with hlt | hge
  · have := (List.pairwise_iff_getElem.1 hs) k i hk hi hlt
    rw [hxe, hye] at this
    unfold RecLE at this
    rw [hc] at this
    cases this
  · have hik' : i = k := by omega
    subst hik'
    rw [hx] at hy
    cases hy
    rw [compRec_iff] at hc
    rcases hc with h | ⟨-, h⟩
    · exact lt_irrefl _ h
    · exact lt_irrefl _ h

theorem generatedFor_fields (g : Grid) (tgridi : List Int) (np : Int) (get_uid : Nat → ℚ)
    (get_idata_row : ℚ → Int) (idx : Nat) :
    ∀ e ∈ generatedFor g tgridi np get_uid get_idata_row idx,
      e.Pos = np ∧ e.Fromdata = false ∧ e.Evid = 0 := by
  intro e he
  unfold generatedFor at he
  split at he
  · cases he
  · split at he
    · cases he
    · rcases List.mem_append.1 he with he | he
      · simp only [List.mem_map] at he
        obtain ⟨h, -, rfl⟩ := he
        exact ⟨rfl, rfl, rfl⟩
      · simp only [List.mem_map] at he
        obtain ⟨t, -, rfl⟩ := he
        exact ⟨rfl, rfl, rfl⟩

theorem designs_at {g : Grid} {np : Int} {d : Int} {n : Nat} {z : List datarecord}
    (hn : atInt (tgridn g) d = some n) (hz : atInt (designs g np) d = some z) :
    z = (List.range n).map (fun h => datarecord.obs (g.cell h d.toNat) np true) := by
  unfold atInt at hn hz
  split at hn
  · rename_i hd
    rw [if_pos hd] at hz
    have hlt : d.toNat < (tgridn g).length := (List.getElem?_eq_some.1 hn).1
    have hget : (tgridn g)[d.toNat] = n := (List.getElem?_eq_some.1 hn).2
    unfold designs at hz
    rw [List.getElem?_map, List.getElem?_range hlt] at hz
    simp only [Option.map_some'] at hz
    cases hz
    have : (tgridn g).getD d.toNat 0 = n := by
      rw [List.getD_eq_getElem?_getD, hn]
      rfl
    rw [this]
  · cases hn

theorem assembleStack_exact {g : Grid} {tgridi : List Int} {np : Int} {get_uid : Nat → ℚ}
    {get_idata_row : ℚ → Int} {idx : Nat} {stack : List datarecord}
    {res : List datarecord × Nat}
    (h : assembleStack g tgridi np get_uid get_idata_row idx stack = .ok res) :
    res.1 = std_sort (stack ++ generatedFor g tgridi np get_uid get_idata_row idx) := by
  unfold assembleStack at h
  dsimp only at h
  unfold generatedFor
  split at h
  · cases h
  · rename_i d hd
    split at h
    · rename_i n z hn hz
      try simp only [hn]
      split at h
      · cases h
        have hzz := designs_at hn hz
        have htake : z.take n = z := by
          apply List.take_of_length_le
          rw [hzz]; simp
        rw [htake, hzz, List.append_assoc]
      · cases h
    · cases h

theorem assembleLoop_exact {g : Grid} {tgridi : List Int} {np : Int} {get_uid : Nat → ℚ}
    {get_idata_row : ℚ → Int} :
    ∀ (a : List (List datarecord)) (idx obscount : Nat)
      (res : List (List datarecord) × Nat),
      assembleLoop g tgridi np get_uid get_idata_row idx a obscount = .ok res →
      res.1 = (a.enumFrom idx).map
        (fun p => std_sort (p.2 ++ generatedFor g tgridi np get_uid get_idata_row p.1)) := by
  intro a
  induction a with
  | nil =>
    intro idx obscount res h
    simp [assembleLoop] at h
    cases h
    rfl
  | cons stack rest ih =>
    intro idx obscount res h
    unfold assembleLoop at h
    split at h
    · cases h
    · rename_i sn hsn
      split at h
      · cases h
      · rename_i ro hro
        cases h
        simp only [List.enumFrom_cons, List.map_cons]
        rw [assembleStack_exact hsn, ih _ _ _ hro]

theorem gridSection_exact {g : Grid} {put_ev_first obsaug : Bool} {data_nrow : Int}
    {get_uid : Nat → ℚ} {get_idata_row : ℚ → Int} {a : List (List datarecord)}
    {obscount : Nat} {res : List (List datarecord) × Nat}
    (hrun : obscount = 0 ∨ obsaug = true)
    (h : gridSection g put_ev_first obsaug data_nrow get_uid get_idata_row a obscount
      = .ok res) :
    res.1 = a.enum.map (fun p => std_sort (p.2 ++ generatedFor g (designIndicator g a.length)
      (nextpos put_ev_first data_nrow) get_uid get_idata_row p.1)) := by
  unfold gridSection at h
  rw [if_pos hrun] at h
  split at h
  · cases h
  · rename_i tgridi hc
    have ht : tgridi = designIndicator g a.length := by
      have hdef : checkDesigns g a.length
          = if (designIndicator g a.length).length < a.length then
              .error "Length of design indicator less than NID."
            else if (designIndicator g a.length).any (fun d => decide ((g.ncol : Int) ≤ d)) then
              .error "Insufficient number of designs specified for this problem."
            else .ok (designIndicator g a.length) := rfl
      rw [hdef] at hc
      split at hc
      · cases hc
      · split at hc
        · cases hc
        · cases hc; rfl
    rw [assembleLoop_exact a 0 obscount res h, ht]
    rfl

theorem assembleStack_lookup {g : Grid} {tgridi : List Int} {np : Int} {get_uid : Nat → ℚ}
    {get_idata_row : ℚ → Int} {idx : Nat} {stack : List datarecord}
    {res : List datarecord × Nat}
    (h : assembleStack g tgridi np get_uid get_idata_row idx stack = .ok res) :
    ∃ (d : Int) (n : Nat), atInt tgridi (get_idata_row (get_uid idx)) = some d ∧
      atInt (tgridn g) d = some n ∧ res.2 = n ∧
      generatedFor g tgridi np get_uid get_idata_row idx
        = (List.range n).map (fun h => datarecord.obs (g.cell h d.toNat) np true)
          ++ g.ptimes.map (fun t => datarecord.obs t np false) := by
  unfold assembleStack at h
  dsimp only at h
  split at h
  · cases h
  · rename_i d hd
    split at h
    · rename_i n z hn hz
      split at h
      · cases h
        refine ⟨d, n, hd, hn, rfl, ?_⟩
        unfold generatedFor
        rw [hd]
        dsimp only
        rw [hn]
      · cases h
    · cases h

theorem assembleLoop_lookup {g : Grid} {tgridi : List Int} {np : Int} {get_uid : Nat → ℚ}
    {get_idata_row : ℚ → Int} :
    ∀ (a : List (List datarecord)) (idx obscount : Nat)
      (res : List (List datarecord) × Nat),
      assembleLoop g tgridi np get_uid get_idata_row idx a obscount = .ok res →
      ∀ p ∈ a.enumFrom idx, ∃ (d : Int) (n : Nat),
        atInt tgridi (get_idata_row (get_uid p.1)) = some d ∧
        atInt (tgridn g) d = some n ∧
        generatedFor g tgridi np get_uid get_idata_row p.1
          = (List.range n).map (fun h => datarecord.obs (g.cell h d.toNat) np true)
            ++ g.ptimes.map (fun t => datarecord.obs t np false) := by
  intro a
  induction a with
  | nil =>
    intro idx obscount res _ p hp
    cases hp
  | cons stack rest ih =>
    intro idx obscount res h p hp
    unfold assembleLoop at h
    split at h
    · cases h
    · rename_i sn hsn
      split at h
      · cases h
      · rename_i ro hro
        rw [List.enumFrom_cons] at hp
        rcases List.mem_cons.1 hp with rfl | hp
        · obtain ⟨d, n, h1, h2, -, h4⟩ := assembleStack_lookup hsn
          exact ⟨d, n, h1, h2, h4⟩
        · exact ih _ _ _ hro p hp

/-- C7. Tie-break between dataset events and generated observations. `recsort` 3 and 4
set `put_ev_first`, 1 and 2 clear it. For a dataset with `rows` rows (`rows + 10`
representable as an `int`) the generic position is `rows + 10` with `put_ev_first`,
above every dataset row position `0 .. rows-1`, and `-100` without it, below every
dataset row position; no dataset row position equals it. When the grid section runs, the
stack it returns for a subject is the sort of the old entries together with the generated
records of the subject: an output observation at each of the `n` times of its design and
a non-output observation at each padded time, every one with the generic position. In
that stack a dataset event and a generated observation with the same time both occur,
the event before the observation with `put_ev_first` and after it without. -/
theorem C7_generic_position (rows : Int) (h0 : 0 ≤ rows) (hfit : rows + 10 < 2 ^ 31) :
    (recsortFlags 1 = .ok (false, true) ∧ recsortFlags 2 = .ok (false, false) ∧
      recsortFlags 3 = .ok (true, true) ∧ recsortFlags 4 = .ok (true, false)) ∧
    nextpos true rows = rows + 10 ∧ nextpos false rows = -100 ∧
    (∀ p : Int, 0 ≤ p → p < rows → p < nextpos true rows ∧ nextpos false rows < p) ∧
    (∀ (p : Int) (put_ev_first : Bool), 0 ≤ p → p < rows → p ≠ nextpos put_ev_first rows) ∧
    (∀ (g : Grid) (put_ev_first obsaug : Bool) (get_uid : Nat → ℚ)
        (get_idata_row : ℚ → Int) (a : List (List datarecord)) (obscount : Nat)
        (res : List (List datarecord) × Nat),
      (obscount = 0 ∨ obsaug = true) →
      gridSection g put_ev_first obsaug rows get_uid get_idata_row a obscount = .ok res →
      res.1 = a.enum.map (fun p => std_sort (p.2 ++ generatedFor g
        (designIndicator g a.length) (nextpos put_ev_first rows) get_uid get_idata_row
        p.1)) ∧
      ∀ (idx : Nat) (stack : List datarecord), a[idx]? = some stack →
        res.1[idx]? = some (std_sort (stack ++ generatedFor g (designIndicator g a.length)
          (nextpos put_ev_first rows) get_uid get_idata_row idx)) ∧
        (∃ (d : Int) (n : Nat),
          atInt (designIndicator g a.length) (get_idata_row (get_uid idx)) = some d ∧
          atInt (tgridn g) d = some n ∧
          generatedFor g (designIndicator g a.length) (nextpos put_ev_first rows) get_uid
              get_idata_row idx
            = (List.range n).map
                (fun h => datarecord.obs (g.cell h d.toNat) (nextpos put_ev_first rows) true)
              ++ g.ptimes.map
                (fun t => datarecord.obs t (nextpos put_ev_first rows) false)) ∧
        ∀ ev ∈ stack, ∀ ob ∈ generatedFor g (designIndicator g a.length)
            (nextpos put_ev_first rows) get_uid get_idata_row idx,
          0 ≤ ev.Pos → ev.Pos < rows → ev.Time = ob.Time →
          ob.Pos = nextpos put_ev_first rows ∧
          ev ∈ std_sort (stack ++ generatedFor g (designIndicator g a.length)
            (nextpos put_ev_first rows) get_uid get_idata_row idx) ∧
          ob ∈ std_sort (stack ++ generatedFor g (designIndicator g a.length)
            (nextpos put_ev_first rows) get_uid get_idata_row idx) ∧
          ∀ (i k : Nat),
            (std_sort (stack ++ generatedFor g (designIndicator g a.length)
              (nextpos put_ev_first rows) get_uid get_idata_row idx))[i]? = some ev →
            (std_sort (stack ++ generatedFor g (designIndicator g a.length)
              (nextpos put_ev_first rows) get_uid get_idata_row idx))[k]? = some ob →
            (put_ev_first = true → i < k) ∧ (put_ev_first = false → k < i)) := by
  have hn1 : nextpos true rows = rows + 10 := by
    unfold nextpos
    rw [if_pos rfl]
    exact i32_of_fits (by omega) hfit
  have hn2 : nextpos false rows = -100 := by
    unfold nextpos
    simp
  refine ⟨⟨rfl, rfl, rfl, rfl⟩, hn1, hn2, ?_, ?_, ?_⟩
  · intro p hp0 hp1
    rw [hn1, hn2]
    constructor <;> omega
  · intro p b hp0 hp1
    cases b
    · rw [hn2]; omega
    · rw [hn1]; omega
  · intro g put_ev_first obsaug get_uid get_idata_row a obscount res hrun h
    have hex := gridSection_exact hrun h
    refine ⟨hex, ?_⟩
    intro idx stack hidx
    have hmem : (idx, stack) ∈ a.enum := List.mk_mem_enum_iff_getElem?.2 hidx
    have hlook : ∃ (d : Int) (n : Nat),
        atInt (designIndicator g a.length) (get_idata_row (get_uid idx)) = some d ∧
        atInt (tgridn g) d = some n ∧
        generatedFor g (designIndicator g a.length) (nextpos put_ev_first rows) get_uid
            get_idata_row idx
          = (List.range n).map
              (fun h => datarecord.obs (g.cell h d.toNat) (nextpos put_ev_first rows) true)
            ++ g.ptimes.map
              (fun t => datarecord.obs t (nextpos put_ev_first rows) false) := by
      unfold gridSection at h
      rw [if_pos hrun] at h
      split at h
      · cases h
      · rename_i tgridi hc
        have ht : tgridi = designIndicator g a.length := by
          have hdef : checkDesigns g a.length
              = if (designIndicator g a.length).length < a.length then
                  .error "Length of design indicator less than NID."
                else if (designIndicator g a.length).any
                    (fun d => decide ((g.ncol : Int) ≤ d)) then
                  .error "Insufficient number of designs specified for this problem."
                else .ok (designIndicator g a.length) := rfl
          rw [hdef] at hc
          split at hc
          · cases hc
          · split at hc
            · cases hc
            · cases hc; rfl
        subst ht
        exact assembleLoop_lookup a 0 obscount res h (idx, stack) hmem
    refine ⟨?_, hlook, ?_⟩
    · rw [hex, List.getElem?_map, List.getElem?_enum, hidx]
      rfl
    · intro ev hev ob hob hp0 hp1 ht
      have hpo : ob.Pos = nextpos put_ev_first rows :=
        (generatedFor_fields _ _ _ _ _ _ ob hob).1
      have hsorted := std_sort_sorted (stack ++ generatedFor g (designIndicator g a.length)
        (nextpos put_ev_first rows) get_uid get_idata_row idx)
      refine ⟨hpo, ?_, ?_, ?_⟩
      · exact (std_sort_perm _).mem_iff.2 (List.mem_append_left _ hev)
      · exact (std_sort_perm _).mem_iff.2 (List.mem_append_right _ hob)
      · intro i k hi hk
        constructor
        · intro hb
          subst hb
          refine sorted_index_lt hsorted hi hk ?_
          rw [compRec_iff]
          right
          refine ⟨ht, ?_⟩
          rw [hpo, hn1]; omega
        · intro hb
          subst hb
          refine sorted_index_lt hsorted hk hi ?_
          rw [compRec_iff]
          right
          refine ⟨ht.symm, ?_⟩
          rw [hpo, hn2]; omega

/-- A dataset of 4 rows and the grid of the times 0 and 1: the generic positions are 14
and -100; with `put_ev_first` the stack of the subject with the dataset dose at time 0
becomes the dose, the generated observation at time 0 (position 14), the generated
observation at time 1, so the dose stands before the observation of its time; without
`put_ev_first` the generated observation at time 0 (position -100) stands first. -/
theorem C7_generic_position_witness :
    nextpos true 4 = 4 + 10 ∧ nextpos false 4 = -100 ∧
    (∃ res, gridSection demoGrid true false 4 demoX.get_uid demoX.get_idata_row
        [[demoDose]] 0 = .ok res ∧
      res.1 = [[demoDose, datarecord.obs 0 14 true, datarecord.obs 1 14 true]] ∧
      ∀ (i k : Nat),
        [demoDose, datarecord.obs 0 14 true, datarecord.obs 1 14 true][i]? = some demoDose →
        [demoDose, datarecord.obs 0 14 true, datarecord.obs 1 14 true][k]?
          = some (datarecord.obs 0 14 true) → i < k) ∧
    (∃ res, gridSection demoGrid false false 4 demoX.get_uid demoX.get_idata_row
        [[demoDose]] 0 = .ok res ∧
      res.1 = [[datarecord.obs 0 (-100) true, demoDose, datarecord.obs 1 (-100) true]] ∧
      ∀ (i k : Nat),
        [datarecord.obs 0 (-100) true, demoDose, datarecord.obs 1 (-100) true][i]?
          = some demoDose →
        [datarecord.obs 0 (-100) true, demoDose, datarecord.obs 1 (-100) true][k]?
          = some (datarecord.obs 0 (-100) true) → k < i) := by
  have h := C7_generic_position 4 (by decide) (by decide)
  obtain ⟨res1, hres1⟩ := exists_ok_of_isOk
    (by decide! : isOk (gridSection demoGrid true false 4 demoX.get_uid demoX.get_idata_row
        [[demoDose]] 0) = true)
  obtain ⟨res2, hres2⟩ := exists_ok_of_isOk
    (by decide! : isOk (gridSection demoGrid false false 4 demoX.get_uid demoX.get_idata_row
        [[demoDose]] 0) = true)
  have g1 := h.2.2.2.2.2 demoGrid true false demoX.get_uid demoX.get_idata_row [[demoDose]] 0
    res1 (Or.inl rfl) hres1
  have g2 := h.2.2.2.2.2 demoGrid false false demoX.get_uid demoX.get_idata_row [[demoDose]] 0
    res2 (Or.inl rfl) hres2
  have e1 : std_sort ([demoDose] ++ generatedFor demoGrid (designIndicator demoGrid 1)
      (nextpos true 4) demoX.get_uid demoX.get_idata_row 0)
      = [demoDose, datarecord.obs 0 14 true, datarecord.obs 1 14 true] := by decide!
  have e2 : std_sort ([demoDose] ++ generatedFor demoGrid (designIndicator demoGrid 1)
      (nextpos false 4) demoX.get_uid demoX.get_idata_row 0)
      = [datarecord.obs 0 (-100) true, demoDose, datarecord.obs 1 (-100) true] := by decide!
  refine ⟨h.2.1, h.2.2.1, ⟨res1, hres1, ?_, ?_⟩, ⟨res2, hres2, ?_, ?_⟩⟩
  · rw [g1.1]
    show [std_sort ([demoDose] ++ generatedFor demoGrid (designIndicator demoGrid 1)
      (nextpos true 4) demoX.get_uid demoX.get_idata_row 0)] = _
    rw [e1]
  · intro i k hi hk
    have t := (g1.2 0 [demoDose] rfl).2.2 demoDose (by decide) (datarecord.obs 0 14 true)
      (by decide!) (by decide) (by decide) (by decide!)
    rw [← e1] at hi hk
    exact (t.2.2.2 i k hi hk).1 rfl
  · rw [g2.1]
    show [std_sort ([demoDose] ++ generatedFor demoGrid (designIndicator demoGrid 1)
      (nextpos false 4) demoX.get_uid demoX.get_idata_row 0)] = _
    rw [e2]
  · intro i k hi hk
    have t := (g2.2 0 [demoDose] rfl).2.2 demoDose (by decide) (datarecord.obs 0 (-100) true)
      (by decide!) (by decide) (by decide) (by decide!)
    rw [← e2] at hi hk
    exact (t.2.2.2 i k hi hk).2 rfl

/-! ## Carried tran items -/

theorem tranCells_eq_foldl (tc : List String) (np : Int) (oa : Bool) (r : datarecord) :
    tranCells tc np oa r
      = ((tranItems tc np oa r).foldl (fun c it => carryItem it.1 it.2.2 c) ([], 0)).1 := rfl

theorem carry_foldl (items : List (Bool × String × ℚ)) :
    ∀ (acc : List (Nat × Cell)) (n : Nat),
      items.foldl (fun c it => carryItem it.1 it.2.2 c) (acc, n)
        = (acc ++ ((items.filter (fun it => it.1)).enumFrom n).map
              (fun p => (p.1 + 2, Cell.num p.2.2.2)),
            n + (items.filter (fun it => it.1)).length) := by
  induction items with
  | nil => intro acc n; simp
  | cons it rest ih =>
    intro acc n
    rw [List.foldl_cons]
    cases hf : it.1 with
    | false =>
      have hstep : carryItem false it.2.2 (acc, n) = (acc, n) := rfl
      rw [hstep, ih]
      simp [List.filter_cons, hf]
    | true =>
      have hstep : carryItem true it.2.2 (acc, n)
          = (acc ++ [(n + 2, Cell.num it.2.2)], n + 1) := rfl
      rw [hstep, ih]
      simp [List.filter_cons, hf, List.enumFrom_cons]
      omega

theorem tran_names_eq_items (tc : List String) (hne : tc ≠ []) (np : Int) (oa : Bool)
    (r : datarecord) :
    tran_names tc = ((tranItems tc np oa r).filter (fun it => it.1)).map (fun it => it.2.1) := by
  have hl : tc.length > 0 := List.length_pos.2 hne
  unfold tran_names tranItems
  rw [if_pos hl]
  cases carries tc "evid" <;> cases carries tc "amt" <;> cases carries tc "cmt" <;>
    cases carries tc "ss" <;> cases carries tc "ii" <;> cases carries tc "addl" <;>
    cases carries tc "rate" <;> cases carries tc "a.u.g" <;> rfl

theorem tranItems_eq_map (tc : List String) (np : Int) (oa : Bool) (r : datarecord) :
    tranItems tc np oa r
      = canonicalTran.map (fun nm => (carries tc nm, nm, tranField np oa r nm)) := by
  simp [tranItems, canonicalTran, tranField]

theorem tranItems_filter (tc : List String) (np : Int) (oa : Bool) (r : datarecord) :
    (tranItems tc np oa r).filter (fun it => it.1)
      = (canonicalTran.filter (fun nm => carries tc nm)).map
          (fun nm => (carries tc nm, nm, tranField np oa r nm)) := by
  rw [tranItems_eq_map, List.filter_map]
  rfl

theorem tran_names_eq_filter (tc : List String) (hne : tc ≠ []) :
    tran_names tc = canonicalTran.filter (fun nm => carries tc nm) := by
  rw [tran_names_eq_items tc hne 0 false (datarecord.obs 0 0 false), tranItems_filter,
    List.map_map]
  exact List.map_id _

theorem tranCells_eq_names (tc : List String) (hne : tc ≠ []) (np : Int) (oa : Bool)
    (r : datarecord) :
    tranCells tc np oa r
      = (tran_names tc).enum.map (fun q => (2 + q.1, Cell.num (tranField np oa r q.2))) := by
  rw [tranCells_eq_foldl, carry_foldl, tranItems_filter, tran_names_eq_filter tc hne]
  simp only [List.nil_append, List.enum]
  generalize canonicalTran.filter (fun nm => carries tc nm) = names
  generalize 0 = n
  induction names generalizing n with
  | nil => rfl
  | cons nm rest ih =>
    simp only [List.map_cons, List.enumFrom_cons]
    rw [ih]
    simp [Nat.add_comm]

theorem tranCarryStack_eq (tc : List String) (np : Int) (oa : Bool) :
    ∀ (l : List datarecord) (c : Nat), c + (l.filter (fun r => r.output)).length < 2 ^ 32 →
      tranCarryStack tc np oa l c
        = (((l.filter (fun r => r.output)).enumFrom c).map
              (fun p => ({ row := p.1, cells := tranCells tc np oa p.2 } : RowWrite)),
            c + (l.filter (fun r => r.output)).length) := by
  intro l
  induction l with
  | nil => intro c _; rfl
  | cons r rest ih =>
    intro c hc
    unfold tranCarryStack
    cases ho : r.output with
    | false =>
      simp only [List.filter_cons, ho] at hc ⊢
      simpa using ih c hc
    | true =>
      simp only [List.filter_cons, ho, if_true, List.length_cons] at hc ⊢
      have hu : u32 (c + 1) = c + 1 := u32_of_lt (by omega)
      simp only [Bool.not_true, Bool.false_eq_true, if_false, hu]
      rw [ih (c + 1) (by omega)]
      simp [List.enumFrom_cons]
      omega

theorem tranCarryLoop_eq (tc : List String) (np : Int) (oa : Bool) :
    ∀ (a : List (List datarecord)) (c : Nat), c + (outputRecords a).length < 2 ^ 32 →
      tranCarryLoop tc np oa a c
        = (((outputRecords a).enumFrom c).map
              (fun p => ({ row := p.1, cells := tranCells tc np oa p.2 } : RowWrite)),
            c + (outputRecords a).length) := by
  intro a
  induction a with
  | nil => intro c _; rfl
  | cons st rest ih =>
    intro c hc
    have hsplit : outputRecords (st :: rest)
        = st.filter (fun r => r.output) ++ outputRecords rest := by
      simp [outputRecords]
    rw [hsplit, List.length_append] at hc
    unfold tranCarryLoop
    dsimp only
    rw [tranCarryStack_eq tc np oa st c (by omega)]
    dsimp only
    rw [ih _ (by omega), hsplit]
    simp [List.enumFrom_append, Nat.add_assoc]

theorem carries_perm {tc tc2 : List String} (h : tc2.Perm tc) (nm : String) :
    carries tc2 nm = carries tc nm := by
  unfold carries
  rw [Bool.eq_iff_iff]
  simp only [List.contains_iff_exists_mem_beq, beq_iff_eq]
  constructor
  · rintro ⟨x, hx, rfl⟩
    exact ⟨_, h.mem_iff.1 hx, rfl⟩
  · rintro ⟨x, hx, rfl⟩
    exact ⟨_, h.mem_iff.2 hx, rfl⟩

theorem tranCarryStack_congr {tc tc2 : List String} (np : Int) (oa : Bool)
    (h : ∀ r, tranCells tc2 np oa r = tranCells tc np oa r) :
    ∀ (l : List datarecord) (c : Nat),
      tranCarryStack tc2 np oa l c = tranCarryStack tc np oa l c := by
  intro l
  induction l with
  | nil => intro c; rfl
  | cons r rest ih =>
    intro c
    unfold tranCarryStack
    rw [ih, ih, h]

theorem tranCarryLoop_congr {tc tc2 : List String} (np : Int) (oa : Bool)
    (h : ∀ r, tranCells tc2 np oa r = tranCells tc np oa r) :
    ∀ (a : List (List datarecord)) (c : Nat),
      tranCarryLoop tc2 np oa a c = tranCarryLoop tc np oa a c := by
  intro a
  induction a with
  | nil => intro c; rfl
  | cons st rest ih =>
    intro c
    unfold tranCarryLoop
    dsimp only
    rw [tranCarryStack_congr np oa h, ih]

/-- C9. Carried tran items. For a non-empty request the names returned are the members
of the canonical sequence `evid, amt, cmt, ss, ii, addl, rate, a.u.g` that occur in the
request, in canonical order; a permutation of the request gives the same names and the
same assignments; and (for fewer than `2^32` output records) the output-eligible records,
counted across subjects in stack order, take the rows `0, 1, 2, ...`, the row of a record
holding in column `2 + k` the field named by the `k`-th returned name. -/
theorem C9_tran_carry (tc : List String) (hne : tc ≠ []) (np : Int) (oa : Bool) :
    tran_names tc = canonicalTran.filter (fun nm => decide (nm ∈ tc)) ∧
    (∀ tc2 : List String, tc2.Perm tc →
      tran_names tc2 = tran_names tc ∧
      ∀ a, tranCarry tc2 np oa a = tranCarry tc np oa a) ∧
    (∀ a : List (List datarecord), (outputRecords a).length < 2 ^ 32 →
      tranCarry tc np oa a
        = (outputRecords a).enum.map (fun p =>
            ({ row := p.1
               cells := (tran_names tc).enum.map
                 (fun q => (2 + q.1, Cell.num (tranField np oa p.2 q.2))) } : RowWrite))) := by
  have hl : tc.length > 0 := List.length_pos.2 hne
  refine ⟨?_, ?_, ?_⟩
  · rw [tran_names_eq_filter tc hne]
    congr 1
    funext nm
    simp [carries]
  · intro tc2 hp
    have hne2 : tc2 ≠ [] := by
      intro h0
      rw [h0] at hp
      exact hne (List.nil_perm.1 hp)
    have hcar : (fun nm => carries tc2 nm) = (fun nm => carries tc nm) :=
      funext (carries_perm hp)
    have hnames : tran_names tc2 = tran_names tc := by
      rw [tran_names_eq_filter tc hne, tran_names_eq_filter tc2 hne2, hcar]
    refine ⟨hnames, fun a => ?_⟩
    have hcells : ∀ r, tranCells tc2 np oa r = tranCells tc np oa r := by
      intro r
      rw [tranCells_eq_names tc hne, tranCells_eq_names tc2 hne2, hnames]
    unfold tranCarry
    rw [if_pos hl, if_pos (List.length_pos.2 hne2), tranCarryLoop_congr np oa hcells]
  · intro a ha
    unfold tranCarry
    rw [if_pos hl, tranCarryLoop_eq tc np oa a 0 (by omega)]
    apply List.map_congr_left
    intro p _
    rw [tranCells_eq_names tc hne]

/-- The request `rate, evid` returns `evid, rate`; the two output records take rows 0 and 1
with `evid` in column 2 and `rate` in column 3. -/
theorem C9_tran_carry_witness :
    tran_names ["rate", "evid"] = ["evid", "rate"] ∧
      tranCarry ["rate", "evid"] (-100) false [[demoDose, demoObs]]
        = [{ row := 0, cells := [(2, Cell.num 1), (3, Cell.num (-2))] },
           { row := 1, cells := [(2, Cell.num 0), (3, Cell.num 0)] }] := by
  have h := C9_tran_carry ["rate", "evid"] (by decide) (-100) false
  refine ⟨h.1.trans (by decide), (h.2.2 [[demoDose, demoObs]] (by decide)).trans ?_⟩
  decide!

end Mrgsolve
